import Mathlib

/-!
A shallow embedding of the universal script parser/interpreter of the sprite
playground repository (`src/game/engine.ts`, third revision in the file: the
`parseUniversalCode` family), of the declarative world loader and result
combination (`parseWorldHTML` / `parseCode`, first revision in the file), and
of the step-player control-state transitions of `src/App.tsx` (first
revision),
together with proofs about the specification claims.

Modelling conventions:
* JS strings are `List Char` internally and `String` at the interface.
* JS numbers are exact rationals (`ℚ`) for `parseFloat` results and `Int` for
  `parseInt` results; the JS value `NaN` is modelled by `Option.none`.  IEEE
  rounding and the literal `Infinity` (unreachable through the argument
  grammar except via raw argument strings) are not modelled.
* `nanoid(8)` is modelled as drawing the next value of an ambient injective
  id supply `gen : Nat → Nat`; the parser threads a draw counter, mirroring
  the library's global random stream.  Ids are `Nat`.
* The regular expressions of the source are compiled by hand into equivalent
  deterministic scanners over `List Char`; each scanner documents the regex
  it implements, including its backtracking behaviour.
-/

namespace Playground

/- Let rational arithmetic unfold during elaboration-time evaluation
(`decide`, `rfl`); the kernel unfolds it regardless. -/
attribute [local semireducible] Rat.mul Rat.add Rat.sub Rat.inv Rat.ofScientific

/-- JS character class `\w`, i.e. `[A-Za-z0-9_]` (ASCII). -/
def isWordChar (c : Char) : Bool := c.isAlphanum || c = '_'

/-- JS `\s` restricted to ASCII whitespace (source lines contain no
unicode spacing in any scenario we state). -/
def isWs (c : Char) : Bool :=
  c = ' ' || c = '\t' || c = '\r' || c = '\n' || c = '\x0b' || c = '\x0c'

/-- The double-quote character. -/
def dq : Char := Char.ofNat 34

/-- The single-quote character. -/
def sq : Char := Char.ofNat 39

/-- The backtick character. -/
def btick : Char := Char.ofNat 96

/-- The character class `["']` used by the argument and quote-stripping
regexes of the engine. -/
def isQuote (c : Char) : Bool := c = dq || c = sq

/-- A single-quote as a one-character string (used to rebuild the engine's
error-message texts exactly). -/
def sqS : String := String.mk [sq]

/-- JS `String.prototype.trim` (ASCII whitespace). -/
def jsTrim (s : List Char) : List Char :=
  ((s.dropWhile isWs).reverse.dropWhile isWs).reverse

/-- `beginsWith pat s` holds when `pat` is a literal prefix of `s`. -/
def beginsWith : List Char → List Char → Bool
  | [], _ => true
  | _ :: _, [] => false
  | p :: ps, c :: cs => p = c && beginsWith ps cs

/-- JS `String.prototype.split` with a one-character separator: the result is
always nonempty, and keeps empty fragments (`"a,"` splits into `a` and `""`). -/
def splitChar (sep : Char) : List Char → List (List Char)
  | [] => [[]]
  | c :: rest =>
    if c = sep then [] :: splitChar sep rest
    else
      match splitChar sep rest with
      | [] => [[c]]
      | h :: t => (c :: h) :: t

/-- Maximal run of `\w` characters at the front (`(\w+)` after the forced
backtracking analysis: a shorter run always leaves a word character where the
following regex piece demands a non-word character). -/
def wordRun : List Char → List Char × List Char
  | [] => ([], [])
  | c :: rest =>
    if isWordChar c then
      match wordRun rest with
      | (w, r) => (c :: w, r)
    else ([], c :: rest)

/-- Skip `\s*`. -/
def skipWs (s : List Char) : List Char := s.dropWhile isWs

/-- Digits of a decimal numeral to a natural number. -/
def digitsToNat (ds : List Char) : Nat :=
  ds.foldl (fun n c => 10 * n + (c.toNat - 48)) 0

/-- The digit run at the front of `cs`, or `none` when there is none. -/
def leadingDigits (cs : List Char) : Option (Nat × List Char) :=
  let ds := cs.takeWhile Char.isDigit
  if ds.isEmpty then none else some (digitsToNat ds, cs.drop ds.length)

/-- JS `parseInt(s, 10)`: skip whitespace, optional sign, then the leading
run of decimal digits; `NaN` (here `none`) when no digit follows. -/
def parseIntJS (s : List Char) : Option Int :=
  let s := skipWs s
  match s with
  | '-' :: rest => (leadingDigits rest).map (fun p => -(p.1 : Int))
  | '+' :: rest => (leadingDigits rest).map (fun p => (p.1 : Int))
  | _ => (leadingDigits s).map (fun p => (p.1 : Int))

/-- Mantissa part of `parseFloat`: leading digits, then optionally a decimal
point and further digits; fails when no digit occurs at all.  Returns the
value and the unconsumed rest. -/
def parseFloatMantissa (cs : List Char) : Option (ℚ × List Char) :=
  let intDs := cs.takeWhile Char.isDigit
  let rest := cs.drop intDs.length
  match rest with
  | '.' :: rest2 =>
    let fracDs := rest2.takeWhile Char.isDigit
    let rest3 := rest2.drop fracDs.length
    if intDs.isEmpty && fracDs.isEmpty then none
    else
      some ((digitsToNat (intDs ++ fracDs) : ℚ) / ((10 : ℚ) ^ fracDs.length), rest3)
  | _ =>
    if intDs.isEmpty then none
    else some ((digitsToNat intDs : ℚ), rest)

/-- Exponent suffix of `parseFloat` (`e`/`E`, optional sign, digits); a
malformed exponent is trailing junk and is ignored. -/
def parseFloatExponent (cs : List Char) : Int :=
  match cs with
  | 'e' :: rest | 'E' :: rest =>
    (match rest with
     | '-' :: rest2 => (leadingDigits rest2).elim 0 (fun p => -(p.1 : Int))
     | '+' :: rest2 => (leadingDigits rest2).elim 0 (fun p => (p.1 : Int))
     | _ => (leadingDigits rest).elim 0 (fun p => (p.1 : Int)))
  | _ => 0

/-- JS `parseFloat`: skip whitespace, optional sign, decimal mantissa,
optional exponent, ignoring any trailing junk; `none` models `NaN`.  (The
literal `Infinity` is not modelled.) -/
def parseFloatJS (s : List Char) : Option ℚ :=
  let s := skipWs s
  let signed : Bool × List Char :=
    match s with
    | '-' :: rest => (true, rest)
    | '+' :: rest => (false, rest)
    | _ => (false, s)
  (parseFloatMantissa signed.2).map (fun p =>
    let e := parseFloatExponent p.2
    let mag : ℚ := if 0 ≤ e then p.1 * (10 : ℚ) ^ e.toNat else p.1 / (10 : ℚ) ^ (-e).toNat
    if signed.1 then -mag else mag)

/-! ## Data model (`src/game/types.ts`, as used by the universal engine) -/

/-- Snapshot of a sprite, as stored in a `CREATE_SPRITE` step (the engine
copies the constructor-time fields; `styles`, `data` and `chatHistory` are
always created empty and never touched by the parser, so they are omitted).
`x`/`y` are `parseInt` results, with `none` modelling `NaN`. -/
structure SpriteSnap where
  id : Nat
  name : String
  shape : String
  x : Option Int
  y : Option Int
  vx : Int
  vy : Int
  rotation : Int
deriving DecidableEq, Repr

/-- Snapshot of a prop.  The declarative world loader stores rational
positions (`parseFloat`) and a `styles.backgroundColor`; `ai.create_prop`
stores validated integer positions (coerced to `ℚ` here) and a `color`. -/
structure PropSnap where
  id : Nat
  shape : String
  x : ℚ
  y : ℚ
  width : ℚ
  height : ℚ
  backgroundColor : Option String
  color : Option String
deriving DecidableEq, Repr

/-- Snapshot of a zone (`world.create_zone`). -/
structure ZoneSnap where
  id : Nat
  name : String
  x : Int
  y : Int
  width : Int
  height : Int
  color : String
deriving DecidableEq, Repr

/-- The `ExecutionStep` tagged union, restricted to the variants the
universal engine and world loader can emit.  Durations are milliseconds. -/
inductive Step where
  | CREATE_SPRITE (sprite : SpriteSnap) (duration : ℚ)
  | CREATE_PROP (prop : PropSnap) (duration : ℚ)
  | SAY (spriteId : Nat) (message : String) (duration : ℚ)
  | WAIT (duration : ℚ)
  | CLEAR_MESSAGE (spriteId : Nat) (duration : ℚ)
  | AI_CHAT_REQUEST (spriteId : Nat) (message : String) (duration : ℚ)
  | MOVE_TO (spriteId : Nat) (x : Int) (y : Int) (duration : ℚ)
  | GO_TO (spriteId : Nat) (x : Int) (y : Int) (duration : ℚ)
  | ROTATE_TO (spriteId : Nat) (angle : Int) (duration : ℚ)
  | LOOK_AT (spriteId : Nat) (x : Int) (y : Int) (duration : ℚ)
  | SET_STYLE (spriteId : Nat) (property : String) (value : String) (duration : ℚ)
  | LOG (message : String) (duration : ℚ)
  | SET_BACKGROUND (color : String) (duration : ℚ)
  | CREATE_ZONE (zone : ZoneSnap) (duration : ℚ)
  | SET_GRAVITY (strength : ℚ) (duration : ℚ)
  | PLAY_SOUND (x : Int) (y : Int) (duration : ℚ)
  | CREATE_NETWORK (spriteId : Nat) (duration : ℚ)
  | REWARD_SPRITE (spriteId : Nat) (value : ℚ) (duration : ℚ)
deriving DecidableEq, Repr

/-- The parse-time `UniversalSprite` proxy object.  Its JS `data` record is
never written by any engine command and its `steps` field aliases the global
step list (passed explicitly where it is read), so neither is stored. -/
structure USprite where
  id : Nat
  name : String
  shape : String
  x : Option Int
  y : Option Int
  vx : Int
  vy : Int
  rotation : Int
deriving DecidableEq, Repr

/-- `ExecutionResult` without `newState`: what `parseUniversalCode`
returns.  A problem is a (1-based) line number with a message. -/
structure ExecResult where
  logs : List String
  problems : List (Nat × String)
  steps : List Step
  executedLines : Nat
deriving DecidableEq, Repr

/-! ## Argument extractor (`parseArgs`, engine.ts lines 423-431)

The source scans its input with the global regex

  `(\w+)\s*[:=]\s*(f?["'](?:[^"'\\]|\\.)*["']|[\d.-]+|True|False|\w+\.\w+)`

repeatedly (`exec` in a loop), assigning `args[key] = value`.  The scanners
below implement the same leftmost-match discipline: at each position try to
match a key/value pair (each regex piece is forced, see the comments), on
failure advance one character. -/

/-- An argument record: JS object insertion order with overwrite-in-place
(later assignments to the same key replace the value, keep the position). -/
abbrev Args := List (String × String)

/-- JS `obj[k] = v` on a record. -/
def argsInsert : Args → String → String → Args
  | [], k, v => [(k, v)]
  | (k', v') :: rest, k, v =>
    if k' = k then (k', v) :: rest else (k', v') :: argsInsert rest k v

/-- JS `obj[k]` on a record (`none` models `undefined`). -/
def argsGet : Args → String → Option String
  | [], _ => none
  | (k', v') :: rest, k => if k' = k then some v' else argsGet rest k

/-- Body of a quoted literal after the opening quote:
`(?:[^"'\\]|\\.)*["']` with greedy backtracking.  The unit segmentation is
forced (a backslash always consumes two characters, an unescaped quote can
only close), so the first unescaped quote closes the literal; reaching the
end of input without one fails.  Returns the consumed characters including
the closing quote, plus the rest. -/
def scanQuoted : List Char → Option (List Char × List Char)
  | [] => none
  | '\\' :: c :: rest =>
    (scanQuoted rest).map (fun p => ('\\' :: c :: p.1, p.2))
  | ['\\'] => none
  | c :: rest =>
    if isQuote c then some ([c], rest)
    else (scanQuoted rest).map (fun p => (c :: p.1, p.2))

/-- Value alternative 1: `f?["'](?:[^"'\\]|\\.)*["']` (the optional `f` only
survives backtracking when a quote follows it). -/
def matchQuotedValue (cs : List Char) : Option (List Char × List Char) :=
  match cs with
  | 'f' :: c :: rest =>
    if isQuote c then (scanQuoted rest).map (fun p => ('f' :: c :: p.1, p.2))
    else none
  | c :: rest =>
    if isQuote c then (scanQuoted rest).map (fun p => (c :: p.1, p.2))
    else none
  | [] => none

/-- Value alternatives 2-4: `[\d.-]+`, `True|False`, `\w+\.\w+` (in the
source's alternation order; alternative 1 is tried first by `matchValue`). -/
def matchPlainValue (cs : List Char) : Option (List Char × List Char) :=
  let numRun := cs.takeWhile (fun c => c.isDigit || c = '.' || c = '-')
  if !numRun.isEmpty then some (numRun, cs.drop numRun.length)
  else if beginsWith "True".data cs then some ("True".data, cs.drop 4)
  else if beginsWith "False".data cs then some ("False".data, cs.drop 5)
  else
    match wordRun cs with
    | ([], _) => none
    | (w1, r) =>
      match r with
      | '.' :: r2 =>
        match wordRun r2 with
        | ([], _) => none
        | (w2, r3) => some (w1 ++ '.' :: w2, r3)
      | _ => none

/-- The full value alternation of the argument regex. -/
def matchValue (cs : List Char) : Option (List Char × List Char) :=
  (matchQuotedValue cs).orElse (fun _ => matchPlainValue cs)

/-- One `key : value` / `key = value` pair at the current position. -/
def matchArgPair (cs : List Char) : Option (List Char × List Char × List Char) :=
  match wordRun cs with
  | ([], _) => none
  | (k, r) =>
    match skipWs r with
    | c :: r2 =>
      if c = ':' || c = '=' then
        (matchValue (skipWs r2)).map (fun p => (k, p.1, p.2))
      else none
    | [] => none

/-- The `exec` loop: leftmost pair matches, one-character advance on
failure.  `fuel` bounds the recursion by the input length (every step
consumes at least one character). -/
def parseArgsAux : Nat → List Char → Args → Args
  | 0, _, acc => acc
  | _ + 1, [], acc => acc
  | fuel + 1, cs, acc =>
    match matchArgPair cs with
    | some (k, v, rest) =>
      parseArgsAux fuel rest (argsInsert acc (String.mk k) (String.mk v))
    | none => parseArgsAux fuel cs.tail acc

/-- `parseArgs` (engine.ts lines 423-431). -/
def parseArgs (cs : List Char) : Args := parseArgsAux cs.length cs []

/-- `.replace(/^["<sq>]|["<sq>]$/g, <empty>)`: strip one leading and one
trailing quote of either kind. -/
def stripEdgeQuotes (s : List Char) : List Char :=
  let s1 := match s with
    | c :: r => if isQuote c then r else s
    | [] => []
  match s1.getLast? with
  | some c => if isQuote c then s1.dropLast else s1
  | none => s1

/-- `.replace(/<sq>|"/g, <empty>)`: remove every quote of either kind. -/
def stripAllQuotes (s : List Char) : List Char := s.filter (fun c => !isQuote c)

/-! ## Line matchers (the per-line regexes of `parseUniversalCode`) -/

/-- `trimmedLine.replace(/(#|\/\/|--).*/, '').trim()` minus the final trim:
cut the line at the leftmost `#`, `//` or `--`. -/
def stripComment : List Char → List Char
  | [] => []
  | '#' :: _ => []
  | '/' :: '/' :: _ => []
  | '-' :: '-' :: _ => []
  | c :: rest => c :: stripComment rest

/-- `^\s*import\s+([\w,\s]+);?$` on an already-trimmed line, returning the
library names (`group.split(',').map(trim)`).  The captured group is the
rest after the maximal whitespace run that still leaves one character. -/
def matchImport (t : List Char) : Option (List String) :=
  if beginsWith "import".data t then
    let rest := t.drop 6
    let rest' := if rest.getLast? = some ';' then rest.dropLast else rest
    match rest' with
    | [] => none
    | c :: _ =>
      if isWs c && decide (2 ≤ rest'.length) &&
          rest'.all (fun d => isWordChar d || d = ',' || isWs d) then
        let k := min (rest'.takeWhile isWs).length (rest'.length - 1)
        some ((splitChar ',' (rest'.drop k)).map (fun l => String.mk (jsTrim l)))
      else none
  else none

/-- `^(\w+)\s*=\s*ai\.Sprite\((.*)\)$`: variable name and raw argument
text (everything between `ai.Sprite(` and the final `)`). -/
def matchCreation (t : List Char) : Option (String × List Char) :=
  match wordRun t with
  | ([], _) => none
  | (w, r) =>
    match skipWs r with
    | '=' :: r2 =>
      let r3 := skipWs r2
      if beginsWith "ai.Sprite(".data r3 then
        let body := r3.drop 10
        match body.getLast? with
        | some ')' => some (String.mk w, body.dropLast)
        | _ => none
      else none
    | _ => none

/-- `^(?:print|console\.log)\((.*)\)$`. -/
def matchPrint (t : List Char) : Option (List Char) :=
  let checkParen : List Char → Option (List Char) := fun body =>
    match body.getLast? with
    | some ')' => some body.dropLast
    | _ => none
  if beginsWith "print(".data t then checkParen (t.drop 6)
  else if beginsWith "console.log(".data t then checkParen (t.drop 12)
  else none

/-- `^(\w+)[.:](\w+)\((.*)\)$`, shared by the library-call and
sprite-method-call matchers of the source (their patterns are identical,
`[\w_]+` being the same class as `\w+`). -/
def matchCall (t : List Char) : Option (String × String × List Char) :=
  match wordRun t with
  | ([], _) => none
  | (w1, r) =>
    match r with
    | c :: r2 =>
      if c = '.' || c = ':' then
        match wordRun r2 with
        | ([], _) => none
        | (w2, r3) =>
          match r3 with
          | '(' :: body =>
            match body.getLast? with
            | some ')' => some (String.mk w1, String.mk w2, body.dropLast)
            | _ => none
          | _ => none
      else none
    | [] => none

/-! ## String interpolation in `print` lines -/

/-- The left and right brace characters. -/
def lbrace : Char := Char.ofNat 123

/-- See `lbrace`. -/
def rbrace : Char := Char.ofNat 125

/-- JS `value || dflt` on an optional string: `undefined` and the empty
string are falsy. -/
def jsOrStr (o : Option String) (d : String) : String :=
  match o with
  | some s => if s = "" then d else s
  | none => d

/-- Association lookup in the `variables` map. -/
def varsGet : List (String × USprite) → String → Option USprite
  | [], _ => none
  | (k', v) :: rest, k => if k' = k then some v else varsGet rest k

/-- Overwrite the binding of `k` (method calls mutate the stored sprite). -/
def varsUpdate : List (String × USprite) → String → USprite → List (String × USprite)
  | [], _, _ => []
  | (k', v') :: rest, k, v =>
    if k' = k then (k', v) :: rest else (k', v') :: varsUpdate rest k v

/-- JS `String(n)` for a possibly-`NaN` integer. -/
def jsShowNum (i : Option Int) : String :=
  match i with
  | some n => toString n
  | none => "NaN"

/-- The engine's sprite methods (own prototype methods of
`UniversalSprite`). -/
def spriteMethodNames : List String :=
  ["say", "chat", "move_to", "go_to", "rotate_to", "look_at", "set_style"]

/-- `Object.prototype` members that are functions and are harmless no-ops
when invoked with the sprite as receiver (`method.call(sprite, args)`);
their return values are discarded by the engine.  (The rarely used
`__defineGetter__` family is not modelled.) -/
def protoFnNames : List String :=
  ["toString", "toLocaleString", "valueOf", "hasOwnProperty",
   "isPrototypeOf", "propertyIsEnumerable"]

/-- `String(sprite[prop])` for the interpolation callback: `none` models
`undefined` (property absent), which makes the engine keep the placeholder
verbatim.  Function-valued properties stringify to their source text in JS;
a short stand-in text is used here (no claim depends on it). -/
def interpProp (sp : USprite) (steps : List Step) (prop : String) : Option String :=
  if prop = "id" then some (toString sp.id)
  else if prop = "name" then some sp.name
  else if prop = "shape" then some sp.shape
  else if prop = "x" then some (jsShowNum sp.x)
  else if prop = "y" then some (jsShowNum sp.y)
  else if prop = "vx" then some (toString sp.vx)
  else if prop = "vy" then some (toString sp.vy)
  else if prop = "rotation" then some (toString sp.rotation)
  else if prop = "data" then some "[object Object]"
  else if prop = "steps" then
    some (String.intercalate "," (steps.map (fun _ => "[object Object]")))
  else if prop = "constructor" then some "class UniversalSprite"
  else if spriteMethodNames.contains prop || protoFnNames.contains prop then
    some ("function " ++ prop)
  else none

/-- Content up to the first `}` (which must exist and the content be
nonempty, per `[^}]+`), and the rest after the `}`. -/
def takeToBrace (cs : List Char) : Option (List Char × List Char) :=
  let content := cs.takeWhile (fun c => c ≠ rbrace)
  match cs.drop content.length with
  | c :: r => if content.isEmpty then none else if c = rbrace then some (content, r) else none
  | [] => none

/-- The replacement callback of the interpolation regex
`\$\{([^}]+)\}|\{([^}]+)\}` (engine.ts lines 490-507): trim the expression,
split at dots, resolve `variables.get(varName)[prop]`; unresolvable
expressions are re-emitted verbatim (with the trimmed expression text). -/
def interpReplace (vars : List (String × USprite)) (steps : List Step)
    (isJs : Bool) (content : List Char) : List Char :=
  let expr := jsTrim content
  if expr.isEmpty then []
  else
    let parts := splitChar '.' expr
    let varName := String.mk parts.headI
    let propOpt := parts.get? 1
    let wrap := (if isJs then ['$', lbrace] else [lbrace]) ++ expr ++ [rbrace]
    match varsGet vars varName, propOpt with
    | some sp, some prop =>
      if prop.isEmpty then wrap
      else
        match interpProp sp steps (String.mk prop) with
        | some v => v.data
        | none => wrap
    | _, _ => wrap

/-- The global interpolation `replace` scan: leftmost alternative wins, the
scan resumes after each replacement; a failed `${` falls back to retrying
from the following `{`.  `fuel` bounds the recursion (each step consumes at
least one input character). -/
def interpolate (vars : List (String × USprite)) (steps : List Step) :
    Nat → List Char → List Char
  | 0, cs => cs
  | _ + 1, [] => []
  | fuel + 1, c :: cs =>
    if c = '$' then
      match cs with
      | c2 :: cs2 =>
        if c2 = lbrace then
          match takeToBrace cs2 with
          | some (content, rest) =>
            interpReplace vars steps true content ++ interpolate vars steps fuel rest
          | none => c :: interpolate vars steps fuel cs
        else c :: interpolate vars steps fuel cs
      | [] => [c]
    else if c = lbrace then
      match takeToBrace cs with
      | some (content, rest) =>
        interpReplace vars steps false content ++ interpolate vars steps fuel rest
      | none => c :: interpolate vars steps fuel cs
    else c :: interpolate vars steps fuel cs

/-- `^f?(["'<btick>])([\s\S]*?)\1$` replaced by the body: strip one layer
of matching quotes/backticks (with an optional `f` prefix); when the regex
does not match, the message is returned unchanged. -/
def stripWrappingQuote (s : List Char) : List Char :=
  let isQB : Char → Bool := fun c => isQuote c || c = btick
  match s with
  | 'f' :: c :: rest =>
    if isQB c && rest.getLast? = some c then rest.dropLast else s
  | c :: rest =>
    if isQB c && rest.getLast? = some c then rest.dropLast else s
  | [] => []

/-! ## `UniversalSprite` construction and methods (engine.ts lines 245-345)

Each method returns the steps it pushes plus the (possibly mutated)
sprite, or the message of the `Error` it throws. -/

/-- The `CREATE_SPRITE` snapshot of a sprite (constructor-time copy). -/
def snapOf (sp : USprite) : SpriteSnap :=
  ⟨sp.id, sp.name, sp.shape, sp.x, sp.y, sp.vx, sp.vy, sp.rotation⟩

/-- The `UniversalSprite` constructor: validates `name`, draws a fresh id,
parses `shape`/`x`/`y` with their defaults.  (The `CREATE_SPRITE` push is
done by the caller, which owns the step list.) -/
def mkSprite (gen : Nat → Nat) (ctr : Nat) (args : Args) : Except String USprite :=
  match argsGet args "name" with
  | none => .error ("Sprite() requires a " ++ sqS ++ "name" ++ sqS ++ " argument.")
  | some nm =>
    if nm = "" then .error ("Sprite() requires a " ++ sqS ++ "name" ++ sqS ++ " argument.")
    else
      .ok
        { id := gen ctr
          name := String.mk (stripEdgeQuotes nm.data)
          shape := jsOrStr ((argsGet args "shape").map
            (fun s => String.mk (stripEdgeQuotes s.data))) "cube"
          x := parseIntJS (jsOrStr (argsGet args "x") "50").data
          y := parseIntJS (jsOrStr (argsGet args "y") "50").data
          vx := 0
          vy := 0
          rotation := 0 }

/-- `say(args)`: SAY (duration 0), WAIT (seconds × 1000, default 2s),
CLEAR_MESSAGE (duration 0). -/
def sayM (sp : USprite) (args : Args) : Except String (List Step × USprite) :=
  let message := match argsGet args "message" with
    | some m => String.mk (stripEdgeQuotes m.data)
    | none => ""
  match parseFloatJS (jsOrStr (argsGet args "duration") "2").data with
  | none => .error "Invalid duration for say()."
  | some q =>
    .ok ([.SAY sp.id message 0, .WAIT (q * 1000), .CLEAR_MESSAGE sp.id 0], sp)

/-- `chat(args)`: a single `AI_CHAT_REQUEST`. -/
def chatM (sp : USprite) (args : Args) : Except String (List Step × USprite) :=
  let message := match argsGet args "message" with
    | some m => String.mk (stripEdgeQuotes m.data)
    | none => ""
  .ok ([.AI_CHAT_REQUEST sp.id message 0], sp)

/-- `move_to(args)`: validates `x`/`y`/`speed` (default 1s), emits
`MOVE_TO` and mutates the proxy's position. -/
def moveToM (sp : USprite) (args : Args) : Except String (List Step × USprite) :=
  let nx := (argsGet args "x").bind (fun s => parseIntJS s.data)
  let ny := (argsGet args "y").bind (fun s => parseIntJS s.data)
  let speed := parseFloatJS (jsOrStr (argsGet args "speed") "1").data
  match nx, ny with
  | some x, some y =>
    match speed with
    | none => .error "Invalid speed for move_to()."
    | some q =>
      .ok ([.MOVE_TO sp.id x y (q * 1000)], { sp with x := some x, y := some y })
  | _, _ =>
    .error ("move_to() requires numeric " ++ sqS ++ "x" ++ sqS ++ " and " ++
      sqS ++ "y" ++ sqS ++ " arguments.")

/-- `go_to(args)`: like `move_to` but `GO_TO` with default speed 2s. -/
def goToM (sp : USprite) (args : Args) : Except String (List Step × USprite) :=
  let nx := (argsGet args "x").bind (fun s => parseIntJS s.data)
  let ny := (argsGet args "y").bind (fun s => parseIntJS s.data)
  let speed := parseFloatJS (jsOrStr (argsGet args "speed") "2").data
  match nx, ny with
  | some x, some y =>
    match speed with
    | none => .error "Invalid speed for go_to()."
    | some q =>
      .ok ([.GO_TO sp.id x y (q * 1000)], { sp with x := some x, y := some y })
  | _, _ =>
    .error ("go_to() requires numeric " ++ sqS ++ "x" ++ sqS ++ " and " ++
      sqS ++ "y" ++ sqS ++ " arguments.")

/-- `rotate_to(args)`: validates `angle`/`speed` (default 1s), emits
`ROTATE_TO` and mutates the proxy's rotation. -/
def rotateToM (sp : USprite) (args : Args) : Except String (List Step × USprite) :=
  let angle := (argsGet args "angle").bind (fun s => parseIntJS s.data)
  let speed := parseFloatJS (jsOrStr (argsGet args "speed") "1").data
  match angle with
  | some a =>
    match speed with
    | none => .error "Invalid speed for rotate_to()."
    | some q => .ok ([.ROTATE_TO sp.id a (q * 1000)], { sp with rotation := a })
  | none =>
    .error ("rotate_to() requires a numeric " ++ sqS ++ "angle" ++ sqS ++ " argument.")

/-- `look_at(args)`: validates `x`/`y`/`speed` (default 0.5s), emits
`LOOK_AT` (the angle is computed at playback time). -/
def lookAtM (sp : USprite) (args : Args) : Except String (List Step × USprite) :=
  let tx := (argsGet args "x").bind (fun s => parseIntJS s.data)
  let ty := (argsGet args "y").bind (fun s => parseIntJS s.data)
  let speed := parseFloatJS (jsOrStr (argsGet args "speed") "0.5").data
  match tx, ty with
  | some x, some y =>
    match speed with
    | none => .error "Invalid speed for look_at()."
    | some q => .ok ([.LOOK_AT sp.id x y (q * 1000)], sp)
  | _, _ =>
    .error ("look_at() requires numeric " ++ sqS ++ "x" ++ sqS ++ " and " ++
      sqS ++ "y" ++ sqS ++ " arguments.")

/-- `set_style(args)`: one `SET_STYLE` per non-`speed` argument, in record
order, all with duration `speed × 1000` (default 1s). -/
def setStyleM (sp : USprite) (args : Args) : Except String (List Step × USprite) :=
  match parseFloatJS (jsOrStr (argsGet args "speed") "1").data with
  | none => .error "Invalid speed for set_style()."
  | some q =>
    .ok ((args.filter (fun p => p.1 ≠ "speed")).map
      (fun p => .SET_STYLE sp.id p.1 (String.mk (stripEdgeQuotes p.2.data)) (q * 1000)), sp)

/-- Dynamic method dispatch `(sprite as any)[methodName]` with
`typeof method === 'function'`: the class methods run; data properties are
"not a method"; `Object.prototype` function members are invoked with the
sprite as receiver and their results discarded; `constructor` is a class
constructor, which throws a `TypeError` when invoked without `new`. -/
def runSpriteMethod (objName m : String) (sp : USprite) (args : Args) :
    Except String (List Step × USprite) :=
  if m = "say" then sayM sp args
  else if m = "chat" then chatM sp args
  else if m = "move_to" then moveToM sp args
  else if m = "go_to" then goToM sp args
  else if m = "rotate_to" then rotateToM sp args
  else if m = "look_at" then lookAtM sp args
  else if m = "set_style" then setStyleM sp args
  else if protoFnNames.contains m then .ok ([], sp)
  else if m = "constructor" then
    .error "Class constructor UniversalSprite cannot be invoked without 'new'"
  else
    .error (sqS ++ objName ++ sqS ++ " has no method named " ++ sqS ++ m ++ sqS ++ ".")

/-! ## Library handlers (engine.ts lines 347-421) -/

/-- The valid library set, in insertion order. -/
def validLibraries : List String := ["ai", "world", "physics", "sound", "neurons"]

/-- The handler table lookup `(libraryHandlers as any)[libName]?.[methodName]`
plus the handler body.  `none` means "no handler", in which case
`parseUniversalCode` falls through to the sprite-method matcher.  A handler
returns pushed steps and the updated id-draw counter.  (Inherited
`Object.prototype` members of the handler objects are not modelled; invoking
them without a receiver mostly throws `TypeError`s.) -/
def libHandler (gen : Nat → Nat) (ctr : Nat) (vars : List (String × USprite))
    (lib m : String) (args : Args) (raw : List Char) :
    Option (Except String (List Step × Nat)) :=
  if lib = "world" ∧ m = "set_background" then some (
    let color := jsOrStr ((argsGet args "color").map
      (fun s => String.mk (stripAllQuotes s.data))) ""
    if color = "" then
      .error ("world.set_background() requires a " ++ sqS ++ "color" ++ sqS ++ " argument.")
    else .ok ([.SET_BACKGROUND color 0], ctr))
  else if lib = "world" ∧ m = "create_zone" then some (
    let x := parseIntJS (jsOrStr (argsGet args "x") "0").data
    let y := parseIntJS (jsOrStr (argsGet args "y") "0").data
    let w := parseIntJS (jsOrStr (argsGet args "width") "10").data
    let h := parseIntJS (jsOrStr (argsGet args "height") "10").data
    match x, y, w, h with
    | some x, some y, some w, some h =>
      let zone : ZoneSnap :=
        { id := gen ctr
          name := String.mk (stripAllQuotes (jsOrStr (argsGet args "name") "zone").data)
          x := x, y := y, width := w, height := h
          color := String.mk (stripAllQuotes (jsOrStr (argsGet args "color") "#ffffff").data) }
      .ok ([.CREATE_ZONE zone 0], ctr + 1)
    | _, _, _, _ =>
      .error "world.create_zone() requires numeric dimensions (x, y, width, height).")
  else if lib = "physics" ∧ m = "set_gravity" then some (
    let sRaw := match argsGet args "strength" with
      | some s => s.data
      | none => raw
    match parseFloatJS sRaw with
    | none => .error "physics.set_gravity() requires a numeric strength."
    | some q => .ok ([.SET_GRAVITY q 0], ctr))
  else if lib = "sound" ∧ m = "play" then some (
    match parseIntJS (jsOrStr (argsGet args "x") "50").data,
        parseIntJS (jsOrStr (argsGet args "y") "50").data with
    | some x, some y => .ok ([.PLAY_SOUND x y 0], ctr)
    | _, _ =>
      .error ("sound.play() requires numeric " ++ sqS ++ "x" ++ sqS ++ " and " ++
        sqS ++ "y" ++ sqS ++ " coordinates."))
  else if lib = "neurons" ∧ m = "create_network" then some (
    match (argsGet args "sprite").bind (varsGet vars) with
    | none => .error "neurons.create_network() requires a valid sprite variable."
    | some sp => .ok ([.CREATE_NETWORK sp.id 0], ctr))
  else if lib = "neurons" ∧ m = "reward" then some (
    let spv := (argsGet args "sprite").bind (varsGet vars)
    let v := parseFloatJS (jsOrStr (argsGet args "value") "1").data
    match spv with
    | none => .error "neurons.reward() requires a valid sprite variable."
    | some sp =>
      match v with
      | none => .error "neurons.reward() requires a numeric value."
      | some q => .ok ([.REWARD_SPRITE sp.id q 0], ctr))
  else if lib = "ai" ∧ m = "wait" then some (
    match parseFloatJS raw with
    | none => .error "Invalid duration for ai.wait()."
    | some q => .ok ([.WAIT (q * 1000)], ctr))
  else if lib = "ai" ∧ m = "create_prop" then some (
    let x := parseIntJS (jsOrStr (argsGet args "x") "50").data
    let y := parseIntJS (jsOrStr (argsGet args "y") "50").data
    let w := parseIntJS (jsOrStr (argsGet args "width") "10").data
    let h := parseIntJS (jsOrStr (argsGet args "height") "10").data
    match x, y, w, h with
    | some x, some y, some w, some h =>
      let prop : PropSnap :=
        { id := gen ctr
          shape := jsOrStr ((argsGet args "shape").map
            (fun s => String.mk (stripEdgeQuotes s.data))) "wall"
          x := (x : ℚ), y := (y : ℚ), width := (w : ℚ), height := (h : ℚ)
          backgroundColor := none
          color := (argsGet args "color").map (fun s => String.mk (stripAllQuotes s.data)) }
      .ok ([.CREATE_PROP prop 0], ctr + 1)
    | _, _, _, _ =>
      .error "ai.create_prop() requires numeric dimensions (x, y, width, height).")
  else none

/-! ## The main loop of `parseUniversalCode` (engine.ts lines 434-564) -/

/-- Mutable parse state: nanoid draw counter, emitted steps, logs, the
variable binding table, the sprite display-name set and the import set. -/
structure LoopSt where
  ctr : Nat
  steps : List Step
  logs : List String
  vars : List (String × USprite)
  names : List String
  libs : List String
deriving DecidableEq

/-- Initial state (`logs` starts with the compile banner). -/
def initSt : LoopSt :=
  { ctr := 0, steps := [], logs := ["Compiling universal code..."],
    vars := [], names := [], libs := [] }

/-- Set insertion (JS `Set.add`). -/
def insertSet (l : List String) (x : String) : List String :=
  if l.contains x then l else l ++ [x]

/-- Validate-and-add for an import list: the first unknown library throws. -/
def addImports : List String → LoopSt → Except String LoopSt
  | [], st => .ok st
  | lib :: rest, st =>
    if validLibraries.contains lib then
      addImports rest { st with libs := insertSet st.libs lib }
    else
      .error ("Unknown library " ++ sqS ++ lib ++ sqS ++
        ". Available: ai, world, physics, sound, neurons.")

/-- Process one comment-stripped, trimmed, nonempty line: the five matchers
in source order (import, sprite creation, print, library call with
fall-through, sprite method call), else the generic failure.  An `error`
models a thrown `Error` caught by the enclosing `try`. -/
def processLine (gen : Nat → Nat) (st : LoopSt) (t : List Char) :
    Except String LoopSt :=
  match matchImport t with
  | some libs =>
    match addImports libs st with
    | .error e => .error e
    | .ok st1 =>
      .ok { st1 with logs := st1.logs ++
        ["Compiled: Imported libraries: " ++ String.intercalate ", " libs ++ "."] }
  | none =>
  match matchCreation t with
  | some (varName, argsChars) =>
    if !st.libs.contains "ai" then
      .error ("Library " ++ sqS ++ "ai" ++ sqS ++ " not imported. Add " ++ sqS ++
        "import ai" ++ sqS ++ " to the top of your file.")
    else
      match mkSprite gen st.ctr (parseArgs argsChars) with
      | .error e => .error e
      | .ok sp =>
        let st1 := { st with ctr := st.ctr + 1
                             steps := st.steps ++ [Step.CREATE_SPRITE (snapOf sp) 0] }
        if (varsGet st1.vars varName).isSome then
          .error ("Variable " ++ sqS ++ varName ++ sqS ++ " is already defined.")
        else if st1.names.contains sp.name then
          .error ("A sprite named " ++ sqS ++ sp.name ++ sqS ++ " already exists.")
        else
          .ok { st1 with vars := st1.vars ++ [(varName, sp)]
                         names := st1.names ++ [sp.name]
                         logs := st1.logs ++ ["Compiled: Created sprite " ++ sqS ++
                           sp.name ++ sqS ++ " as " ++ sqS ++ varName ++ sqS ++ "."] }
  | none =>
  match matchPrint t with
  | some raw =>
    let msg := interpolate st.vars st.steps raw.length raw
    .ok { st with steps := st.steps ++
      [Step.LOG (String.mk (stripWrappingQuote msg)) 0] }
  | none =>
  match matchCall t with
  | some (name, m, argsChars) =>
    if validLibraries.contains name && !st.libs.contains name then
      .error ("Library " ++ sqS ++ name ++ sqS ++ " not imported. Add " ++ sqS ++
        "import " ++ name ++ sqS ++ " to the top of your file.")
    else
      let args := parseArgs argsChars
      match libHandler gen st.ctr st.vars name m args argsChars with
      | some (.error e) => .error e
      | some (.ok (new, ctr')) =>
        .ok { st with steps := st.steps ++ new, ctr := ctr' }
      | none =>
        match varsGet st.vars name with
        | some sp =>
          match runSpriteMethod name m sp args with
          | .error e => .error e
          | .ok (new, sp') =>
            .ok { st with steps := st.steps ++ new
                          vars := varsUpdate st.vars name sp' }
        | none => .error "Invalid syntax or unknown command."
  | none => .error "Invalid syntax or unknown command."

/-- The success log line. -/
def successLog (n : Nat) : String :=
  "Compilation successful. " ++ toString n ++ " steps generated."

/-- One iteration of the loop body on a raw line: strip comments and
whitespace; `none` when the line is skipped (blank after stripping),
otherwise the outcome of `processLine`. -/
def lineStep (gen : Nat → Nat) (st : LoopSt) (l : List Char) :
    Option (Except String LoopSt) :=
  let t := jsTrim (stripComment (jsTrim l))
  if t.isEmpty then none else some (processLine gen st t)

/-- The per-line loop: strip comments, skip blanks, abort on the first
error (discarding all steps, keeping the logs).  `total` is the overall
line count (the source's `executedLines`); the second component is the
final id-draw counter (the advancement of the global nanoid stream; on an
aborted parse the draws of the failing line itself are not counted). -/
def runLines (gen : Nat → Nat) (total : Nat) :
    List (List Char) → Nat → LoopSt → ExecResult × Nat
  | [], _, st =>
    ({ logs := st.logs ++ [successLog st.steps.length], problems := [],
       steps := st.steps, executedLines := total }, st.ctr)
  | l :: rest, n, st =>
    match lineStep gen st l with
    | none => runLines gen total rest (n + 1) st
    | some (.ok st') => runLines gen total rest (n + 1) st'
    | some (.error m) =>
      ({ logs := st.logs, problems := [(n, m)], steps := [],
         executedLines := total }, st.ctr)

/-- `code.split('\n')`. -/
def splitLines (code : String) : List (List Char) := splitChar '\n' code.data

/-- `parseUniversalCode` (engine.ts lines 434-564).  `gen` is the ambient
nanoid supply: the `j`-th id drawn during this call is `gen j`. -/
def parseUniversalCode (code : String) (gen : Nat → Nat) : ExecResult :=
  (runLines gen (splitLines code).length (splitLines code) 1 initSt).1

/-- How many ids a call of `parseUniversalCode` draws from the ambient
nanoid stream (the stream's state advances by this much, so an immediately
following call starts at this offset). -/
def parseDrawCount (code : String) (gen : Nat → Nat) : Nat :=
  (runLines gen (splitLines code).length (splitLines code) 1 initSt).2

/-- The first failing line of a script and its message, mirroring the loop:
blank/comment lines never fail, and the scan stops at the first line whose
processing throws. -/
def firstFailAux (gen : Nat → Nat) :
    List (List Char) → Nat → LoopSt → Option (Nat × String)
  | [], _, _ => none
  | l :: rest, n, st =>
    match lineStep gen st l with
    | none => firstFailAux gen rest (n + 1) st
    | some (.ok st') => firstFailAux gen rest (n + 1) st'
    | some (.error m) => some (n, m)

/-- `firstFailAux` from the initial state: the 1-based number and message of
the first invalid line of `code`, or `none` when every line parses. -/
def firstFailure (code : String) (gen : Nat → Nat) : Option (Nat × String) :=
  firstFailAux gen (splitLines code) 1 initSt

/-! ## Declarative world loader and result combination
(`parseWorldHTML` / `parseCode`, engine.ts lines 11-49 and 66-152, first
revision).  The `DOMParser` platform call is abstracted: a world document is
either a parse failure (caught and logged by the source, yielding no steps)
or the list of `.prop` elements in document order, each with its
`data-shape` and `style` attributes (`none` models `getAttribute`'s
`null`). -/

structure WorldElem where
  dataShape : Option String
  style : Option String
deriving DecidableEq, Repr

/-- The `style.split(';')` / `split(':')` reduce of the source: keep
fragments with nonempty trim, take the first two `:`-parts, keep pairs
whose raw key and value are both nonempty, assign trimmed key/value. -/
def styleRecord (style : List Char) : Args :=
  ((splitChar ';' style).filter (fun s => !(jsTrim s).isEmpty)).foldl
    (fun acc s =>
      let parts := splitChar ':' s
      let key := parts.headI
      match parts.get? 1 with
      | some v =>
        if !key.isEmpty && !v.isEmpty then
          argsInsert acc (String.mk (jsTrim key)) (String.mk (jsTrim v))
        else acc
      | none => acc) []

/-- JS `parseFloat(v) || d`: the default applies on `NaN` (`none`) and on
`0` (falsy). -/
def jsOrNum (v : Option ℚ) (d : ℚ) : ℚ :=
  match v with
  | some q => if q = 0 then d else q
  | none => d

/-- `parseFloat(styleProps[key])` for a world element: `none` when the
style field is missing or does not parse as a number (`NaN`). -/
def worldStyleField (el : WorldElem) (key : String) : Option ℚ :=
  (argsGet (styleRecord (jsOrStr el.style "").data) key).bind
    (fun s => parseFloatJS s.data)

/-- One `.prop` element to its `Prop` record (engine.ts lines 32-42);
`ctr` is the element's nanoid draw index. -/
def elemToProp (gen : Nat → Nat) (ctr : Nat) (el : WorldElem) : PropSnap :=
  { id := gen ctr
    shape := jsOrStr el.dataShape "rock"
    x := jsOrNum (worldStyleField el "left") 50
    y := jsOrNum (worldStyleField el "top") 50
    width := jsOrNum (worldStyleField el "width") 10
    height := jsOrNum (worldStyleField el "height") 10
    backgroundColor := argsGet (styleRecord (jsOrStr el.style "").data) "background-color"
    color := none }

/-- `parseWorldHTML`: one `CREATE_PROP` per `.prop` element in document
order; a failed document parse is caught (and logged to the console) and
yields no steps. -/
def parseWorldHTML (gen : Nat → Nat) : Except Unit (List WorldElem) → List Step
  | .error _ => []
  | .ok els => els.enum.map (fun p => Step.CREATE_PROP (elemToProp gen p.1 p.2) 0)

/-- `parseCode` (first revision, lines 66-152): the world steps are computed
first and prepended to whatever the script execution produced; the script
engines (`executePythonCode` and friends) are external collaborators, so
their result is a parameter.  `none` for `world` models the absence of a
`world.html` file. -/
def parseCode (gen : Nat → Nat) (world : Option (Except Unit (List WorldElem)))
    (scriptResult : ExecResult) : ExecResult :=
  let worldSteps := match world with
    | some doc => parseWorldHTML gen doc
    | none => []
  { scriptResult with steps := worldSteps ++ scriptResult.steps }

/-! ## Step player control state (`src/App.tsx`, first revision)

The scheduling facts modelled: `runNextStep` schedules the next step either
on a timer (`runnerTimeoutRef.current = window.setTimeout(...)`, duration
`> 0`) or on an animation frame (`requestAnimationFrame(runNextStep)`,
duration `0`) — the frame request's handle is discarded;
`resetSimulation`/`handleCompileAndRun` call `clearTimeout` on the stored
timer handle, and the `isRunning` effect cleanup does the same when
`isRunning` flips; no call of `cancelAnimationFrame` exists anywhere in the
file. -/

structure PlayerState where
  isRunning : Bool
  currentStep : Nat
  stepsLen : Nat
  problems : List (Nat × String)
  timerPending : Bool
  rafPending : Bool
deriving DecidableEq, Repr

/-- The scheduling tail of `runNextStep` (App.tsx lines 327-333). -/
def scheduleNext (d : ℚ) (s : PlayerState) : PlayerState :=
  if 0 < d then { s with timerPending := true } else { s with rafPending := true }

/-- `resetSimulation` (App.tsx lines 396-414): stop, clear the stored
timeout, reparse and reset the index to 0.  The animation-frame handle was
never stored, so `rafPending` cannot be (and is not) cleared. -/
def resetSimulation (s : PlayerState) : PlayerState :=
  { s with isRunning := false, timerPending := false, currentStep := 0 }

/-- `handleStop` (App.tsx line 450). -/
def handleStop (s : PlayerState) : PlayerState := resetSimulation s

/-- `handlePause` (App.tsx line 449) plus the `isRunning` effect cleanup
(lines 343-345) that clears the stored timeout when `isRunning` flips. -/
def handlePause (s : PlayerState) : PlayerState :=
  { s with isRunning := false, timerPending := false }

/-- `handleCompileAndRun` (App.tsx lines 423-447): refuse when problems
exist; otherwise stop, clear the timeout, rebuild the preview, reset the
index to 0 and enter Running. -/
def handleCompileAndRun (s : PlayerState) : PlayerState :=
  if s.problems ≠ [] then s
  else { s with isRunning := true, timerPending := false, currentStep := 0 }

/-- The `disabled` predicate of the primary display's play control
(App.tsx line 501). -/
def playButtonDisabled (s : PlayerState) : Bool :=
  s.stepsLen = 0 || s.stepsLen ≤ s.currentStep

/-! ## Auxiliary notions for the claim statements -/

/-- The `spriteId` reference carried by a step (`none` for steps that do
not reference a sprite; a `CREATE_SPRITE` *defines* its id rather than
referencing one). -/
def stepRefId : Step → Option Nat
  | .SAY i _ _ => some i
  | .CLEAR_MESSAGE i _ => some i
  | .AI_CHAT_REQUEST i _ _ => some i
  | .MOVE_TO i _ _ _ => some i
  | .GO_TO i _ _ _ => some i
  | .ROTATE_TO i _ _ => some i
  | .LOOK_AT i _ _ _ => some i
  | .SET_STYLE i _ _ _ => some i
  | .CREATE_NETWORK i _ => some i
  | .REWARD_SPRITE i _ _ => some i
  | _ => none

/-- The ids of the `CREATE_SPRITE` snapshots of a step list. -/
def createIds (l : List Step) : List Nat :=
  l.filterMap (fun s => match s with
    | .CREATE_SPRITE sp _ => some sp.id
    | _ => none)

/-- Every step that references a sprite id is preceded by the
`CREATE_SPRITE` of that id. -/
def GoodSteps (l : List Step) : Prop :=
  ∀ (i : Nat) (hi : i < l.length) (sid : Nat),
    stepRefId l[i] = some sid → sid ∈ createIds (l.take i)

/-- The duration field of a step. -/
def stepDuration : Step → ℚ
  | .CREATE_SPRITE _ d => d
  | .CREATE_PROP _ d => d
  | .SAY _ _ d => d
  | .WAIT d => d
  | .CLEAR_MESSAGE _ d => d
  | .AI_CHAT_REQUEST _ _ d => d
  | .MOVE_TO _ _ _ d => d
  | .GO_TO _ _ _ d => d
  | .ROTATE_TO _ _ d => d
  | .LOOK_AT _ _ _ d => d
  | .SET_STYLE _ _ _ d => d
  | .LOG _ d => d
  | .SET_BACKGROUND _ d => d
  | .CREATE_ZONE _ d => d
  | .SET_GRAVITY _ d => d
  | .PLAY_SOUND _ _ d => d
  | .CREATE_NETWORK _ d => d
  | .REWARD_SPRITE _ _ d => d

/-- Erase everything a fresh nanoid draw can influence: the id fields of
the three snapshot steps, every `spriteId` reference, and the text of `LOG`
steps (whose interpolation can embed an id). -/
def scrubStep : Step → Step
  | .CREATE_SPRITE sp d => .CREATE_SPRITE { sp with id := 0 } d
  | .CREATE_PROP p d => .CREATE_PROP { p with id := 0 } d
  | .CREATE_ZONE z d => .CREATE_ZONE { z with id := 0 } d
  | .SAY _ m d => .SAY 0 m d
  | .CLEAR_MESSAGE _ d => .CLEAR_MESSAGE 0 d
  | .AI_CHAT_REQUEST _ m d => .AI_CHAT_REQUEST 0 m d
  | .MOVE_TO _ x y d => .MOVE_TO 0 x y d
  | .GO_TO _ x y d => .GO_TO 0 x y d
  | .ROTATE_TO _ a d => .ROTATE_TO 0 a d
  | .LOOK_AT _ x y d => .LOOK_AT 0 x y d
  | .SET_STYLE _ p v d => .SET_STYLE 0 p v d
  | .LOG _ d => .LOG "" d
  | .CREATE_NETWORK _ d => .CREATE_NETWORK 0 d
  | .REWARD_SPRITE _ v d => .REWARD_SPRITE 0 v d
  | s => s

/-- Erase the id of a parse-time sprite. -/
def scrubSprite (sp : USprite) : USprite := { sp with id := 0 }

/-- Two parse states that can only differ in generated ids (and in id text
inside already-emitted `LOG` steps). -/
def StRel (s1 s2 : LoopSt) : Prop :=
  s1.ctr = s2.ctr ∧ s1.logs = s2.logs ∧ s1.names = s2.names ∧ s1.libs = s2.libs ∧
  s1.vars.map (fun p => (p.1, scrubSprite p.2)) =
    s2.vars.map (fun p => (p.1, scrubSprite p.2)) ∧
  s1.steps.map scrubStep = s2.steps.map scrubStep

/-- `StRel` lifted to `processLine` outcomes: both throw the same message,
or both succeed with related states. -/
def StRelE : Except String LoopSt → Except String LoopSt → Prop
  | .error e1, .error e2 => e1 = e2
  | .ok a, .ok b => StRel a b
  | _, _ => False

/-- Two parse results that agree on problems, logs, executed lines, and on
steps up to generated ids. -/
def ResultRel (r1 r2 : ExecResult) : Prop :=
  r1.problems = r2.problems ∧ r1.logs = r2.logs ∧
  r1.steps.map scrubStep = r2.steps.map scrubStep ∧
  r1.executedLines = r2.executedLines

/-- Substring test (for the message-content checks of the claims). -/
def containsSeq : List Char → List Char → Bool
  | pat, [] => pat.isEmpty
  | pat, c :: rest => beginsWith pat (c :: rest) || containsSeq pat rest

/-- `s` contains `pat` as a substring. -/
def strContains (s pat : String) : Bool := containsSeq pat.data s.data

/-- The three-line example script of the specification. -/
def exampleScript : String :=
  "import ai\nbot = ai.Sprite(name: \"B1\", x: 10, y: 10)\nbot.say(message: \"hi\", duration: 1)"

/-- The one-line orphan-call script of the specification. -/
def orphanSayScript : String := "bot.say(message: \"hi\")"

/-- A successfully parsing two-line script that creates one sprite (used to
exhibit the id freshness across repeated parses). -/
def oneSpriteScript : String := "import ai\nbot = ai.Sprite(name: \"B1\", x: 10, y: 10)"

/-! # Claims -/

/-- **C3** — Parsing the three-line script `import ai` /
`bot = ai.Sprite(name: "B1", x: 10, y: 10)` /
`bot.say(message: "hi", duration: 1)` returns an empty problems list and
exactly four steps, in order: `CREATE_SPRITE` with name "B1", x 10, y 10,
shape "cube"; `SAY` "hi" with duration 0; `WAIT` with duration 1000;
`CLEAR_MESSAGE` with duration 0 — for every ambient id supply. -/
theorem C3_example_scenario (gen : Nat → Nat) :
    (parseUniversalCode exampleScript gen).problems = [] ∧
    (parseUniversalCode exampleScript gen).steps =
      [Step.CREATE_SPRITE
        { id := gen 0, name := "B1", shape := "cube", x := some 10, y := some 10,
          vx := 0, vy := 0, rotation := 0 } 0,
       Step.SAY (gen 0) "hi" 0,
       Step.WAIT 1000,
       Step.CLEAR_MESSAGE (gen 0) 0] :=
  ⟨rfl, rfl⟩

/-- **C4 (counterexample)** — The one-line script `bot.say(message: "hi")`
with nothing imported produces exactly one problem at line 1, but its
message is the generic "Invalid syntax or unknown command.", which contains
neither "has no method" nor "not imported"; the claimed message content is
therefore wrong.  (The `bot.say(...)` line matches the library-call shape
with the non-library name `bot`, finds no handler, falls through to the
sprite-call matcher, finds no binding — the `'bot' has no method` error is
only reachable for a *bound* variable — and lands on the generic error.) -/
theorem C4_orphan_call_message_counterexample :
    (parseUniversalCode orphanSayScript (fun j => j)).steps = [] ∧
    (parseUniversalCode orphanSayScript (fun j => j)).problems =
      [(1, "Invalid syntax or unknown command.")] ∧
    strContains "Invalid syntax or unknown command." "has no method" = false ∧
    strContains "Invalid syntax or unknown command." "not imported" = false := by
  refine ⟨rfl, rfl, ?_, ?_⟩ <;> decide

/-- **C4 (amended)** — Parsing `bot.say(message: "hi")` with no prior
imports and no prior sprite construction returns an empty steps list and
exactly one problem at line 1 whose message is
"Invalid syntax or unknown command." (for every ambient id supply). -/
theorem C4_orphan_call_amended (gen : Nat → Nat) :
    (parseUniversalCode orphanSayScript gen).steps = [] ∧
    (parseUniversalCode orphanSayScript gen).problems =
      [(1, "Invalid syntax or unknown command.")] :=
  ⟨rfl, rfl⟩

/-- **C8** — The claim (and §5 of the spec) requires every pending timer
*and animation-frame* callback to be cleared on any transition away from
Running.  The player stores only the timeout handle (`runnerTimeoutRef`);
`requestAnimationFrame(runNextStep)`'s handle is discarded and
`cancelAnimationFrame` is never called in `App.tsx`, so after a
zero-duration step schedules the next step on an animation frame, Stop and
Pause both leave that frame callback pending (the stale callback then
applies a step to the freshly reset world state).  This evaluates the model
at the failing input. -/
theorem C8_stop_leaves_frame_callback_pending :
    (handleStop (scheduleNext 0
      { isRunning := true, currentStep := 3, stepsLen := 5, problems := [],
        timerPending := false, rafPending := false })).rafPending = true ∧
    (handlePause (scheduleNext 0
      { isRunning := true, currentStep := 3, stepsLen := 5, problems := [],
        timerPending := false, rafPending := false })).rafPending = true ∧
    (handleStop (scheduleNext 1000
      { isRunning := true, currentStep := 3, stepsLen := 5, problems := [],
        timerPending := false, rafPending := false })).timerPending = false := by
  refine ⟨?_, ?_, ?_⟩ <;> decide

/-- **C9** — From the Finished state (index = sequence length) with no
compile problems, `handleCompileAndRun` (reachable through the always
enabled "Compile & Run" action button; the primary display's play icon is
disabled at Finished but calls the same handler) first resets the index to
0 and then enters Running, so the whole sequence replays. -/
theorem C9_replay_from_finished (s : PlayerState)
    (h1 : s.problems = []) (_finished : s.currentStep = s.stepsLen) :
    (handleCompileAndRun s).currentStep = 0 ∧
    (handleCompileAndRun s).isRunning = true := by
  unfold handleCompileAndRun
  rw [h1]
  exact ⟨rfl, rfl⟩

/-- Witness for C9 at a concrete Finished state. -/
theorem C9_replay_from_finished_witness :
    (handleCompileAndRun
      { isRunning := false, currentStep := 4, stepsLen := 4, problems := [],
        timerPending := false, rafPending := false }).currentStep = 0 ∧
    (handleCompileAndRun
      { isRunning := false, currentStep := 4, stepsLen := 4, problems := [],
        timerPending := false, rafPending := false }).isRunning = true :=
  C9_replay_from_finished
    { isRunning := false, currentStep := 4, stepsLen := 4, problems := [],
      timerPending := false, rafPending := false } rfl rfl

/-- **C6** — For a world markup whose DOM parse yields `els` (the `.prop`
elements in document order), `parseCode` prepends exactly `els.length`
`CREATE_PROP` steps — one per element, in order — before the script's
steps, for *every* script result; a markup parse failure is caught and
contributes nothing (and never aborts: the script's problems and logs pass
through unchanged in all cases). -/
theorem C6_world_steps_prepended (gen : Nat → Nat) (els : List WorldElem)
    (script : ExecResult) :
    (parseCode gen (some (.ok els)) script).steps =
      parseWorldHTML gen (.ok els) ++ script.steps ∧
    (parseWorldHTML gen (.ok els)).length = els.length ∧
    (∀ s ∈ parseWorldHTML gen (.ok els), ∃ p d, s = Step.CREATE_PROP p d) ∧
    (parseCode gen (some (.error ())) script).steps = script.steps ∧
    (parseCode gen (some (.error ())) script).problems = script.problems ∧
    (parseCode gen (some (.error ())) script).logs = script.logs ∧
    (parseCode gen (some (.ok els)) script).problems = script.problems ∧
    (parseCode gen (some (.ok els)) script).logs = script.logs := by
  refine ⟨rfl, ?_, ?_, rfl, rfl, rfl, rfl, rfl⟩
  · simp [parseWorldHTML]
  · intro s hs
    simp only [parseWorldHTML, List.mem_map] at hs
    obtain ⟨p, _, rfl⟩ := hs
    exact ⟨_, _, rfl⟩

/-- **C1 (counterexample)** — Repeated parses of the same text do *not*
return identical steps: each `new UniversalSprite` calls `nanoid(8)`, which
draws the next value of the ambient random id stream, so the
`CREATE_SPRITE` snapshot of the second parse carries a different fresh id
than the first (here, with the stream modelled by `gen j = j`, the second
call starts after the first call's single draw).  The problems lists *are*
identical. -/
theorem C1_repeated_parse_counterexample :
    (parseUniversalCode oneSpriteScript (fun j => j)).steps ≠
      (parseUniversalCode oneSpriteScript
        (fun j => j + parseDrawCount oneSpriteScript (fun j => j))).steps ∧
    (parseUniversalCode oneSpriteScript (fun j => j)).problems =
      (parseUniversalCode oneSpriteScript
        (fun j => j + parseDrawCount oneSpriteScript (fun j => j))).problems := by
  refine ⟨?_, rfl⟩
  decide

/-- **C7 (counterexample)** — A `.prop` element whose `left` style field is
present and numeric with value `0` yields `x = 50` (the default), not `0`:
the loader computes `parseFloat(styleProps.left) || 50` and `0` is falsy in
JS, so the claimed "including the value 0" fails. -/
theorem C7_zero_style_counterexample :
    worldStyleField
      { dataShape := some "rock", style := some "left: 0; top: 20" } "left" = some 0 ∧
    (elemToProp (fun j => j) 0
      { dataShape := some "rock", style := some "left: 0; top: 20" }).x = 50 ∧
    (50 : ℚ) ≠ 0 := by
  refine ⟨?_, ?_, ?_⟩ <;> decide

/-- **C7 (amended)** — The emitted `CREATE_PROP`'s `x`, `y`, `width` and
`height` equal the numeric value parsed from the element's `left`, `top`,
`width`, `height` style fields whenever the field is present, numeric *and
nonzero*; the defaults `x = y = 50`, `width = height = 10` apply when the
field is missing, non-numeric, or parses to `0` (JS `parseFloat(v) || d`
treats `0` and `NaN` alike). -/
theorem C7_style_fields_amended (gen : Nat → Nat) (ctr : Nat) (el : WorldElem) :
    (∀ q : ℚ, worldStyleField el "left" = some q → q ≠ 0 →
      (elemToProp gen ctr el).x = q) ∧
    (worldStyleField el "left" = some 0 → (elemToProp gen ctr el).x = 50) ∧
    (worldStyleField el "left" = none → (elemToProp gen ctr el).x = 50) ∧
    (∀ q : ℚ, worldStyleField el "top" = some q → q ≠ 0 →
      (elemToProp gen ctr el).y = q) ∧
    (worldStyleField el "top" = some 0 → (elemToProp gen ctr el).y = 50) ∧
    (worldStyleField el "top" = none → (elemToProp gen ctr el).y = 50) ∧
    (∀ q : ℚ, worldStyleField el "width" = some q → q ≠ 0 →
      (elemToProp gen ctr el).width = q) ∧
    (worldStyleField el "width" = some 0 → (elemToProp gen ctr el).width = 10) ∧
    (worldStyleField el "width" = none → (elemToProp gen ctr el).width = 10) ∧
    (∀ q : ℚ, worldStyleField el "height" = some q → q ≠ 0 →
      (elemToProp gen ctr el).height = q) ∧
    (worldStyleField el "height" = some 0 → (elemToProp gen ctr el).height = 10) ∧
    (worldStyleField el "height" = none → (elemToProp gen ctr el).height = 10) := by
  unfold elemToProp
  refine ⟨fun q hq hq0 => ?_, fun h => ?_, fun h => ?_, fun q hq hq0 => ?_,
    fun h => ?_, fun h => ?_, fun q hq hq0 => ?_, fun h => ?_, fun h => ?_,
    fun q hq hq0 => ?_, fun h => ?_, fun h => ?_⟩ <;>
    simp only [] <;> first
      | (rw [hq]; simp [jsOrNum, hq0])
      | (rw [h]; simp [jsOrNum])

/-- Witness for C7 (amended) at a concrete element: `left: 7` is kept,
`top: 0` falls back to 50, a non-numeric `width` falls back to 10, and the
missing `height` falls back to 10. -/
theorem C7_style_fields_amended_witness :
    (elemToProp (fun j => j) 0
      { dataShape := some "rock", style := some "left: 7; top: 0; width: oops" }).x = 7 ∧
    (elemToProp (fun j => j) 0
      { dataShape := some "rock", style := some "left: 7; top: 0; width: oops" }).y = 50 ∧
    (elemToProp (fun j => j) 0
      { dataShape := some "rock", style := some "left: 7; top: 0; width: oops" }).width = 10 ∧
    (elemToProp (fun j => j) 0
      { dataShape := some "rock", style := some "left: 7; top: 0; width: oops" }).height = 10 := by
  have h := C7_style_fields_amended (fun j => j) 0
    { dataShape := some "rock", style := some "left: 7; top: 0; width: oops" }
  exact ⟨h.1 7 (by decide) (by decide),
    h.2.2.2.2.1 (by decide),
    h.2.2.2.2.2.2.2.2.1 (by decide),
    h.2.2.2.2.2.2.2.2.2.2.2 (by decide)⟩

/-- A map by a constant function is a `replicate`. -/
theorem map_const_eq_replicate {α β : Type _} (l : List α) (c : β) (f : α → β)
    (h : ∀ a, f a = c) : l.map f = List.replicate l.length c := by
  induction l with
  | nil => rfl
  | cons a t ih => simp [h, ih, List.replicate_succ]

/-- A string that `parseFloat`s to a number is nonempty. -/
theorem parseFloat_ne_empty {d : String} {q : ℚ}
    (h : parseFloatJS d.data = some q) : d ≠ "" := by
  intro hd
  subst hd
  rw [show parseFloatJS "".data = none from rfl] at h
  exact Option.noConfusion h

/-- **C5** — The duration unit law: every timed emission carries
`seconds × 1000` where `seconds` is the user-supplied argument, or the
documented default when the argument is omitted (`say` 2, `move_to` 1,
`go_to` 2, `rotate_to` 1, `look_at` 0.5, `set_style` 1; `ai.wait` has no
default).  Stated per emitter on the argument records the engine passes to
them; `(·.toOption.map ...)` projects the durations of the emitted steps on
the success path. -/
theorem C5_duration_unit_law (sp : USprite) (args : Args) (gen : Nat → Nat)
    (ctr : Nat) (vars : List (String × USprite)) (raw : List Char)
    (d xs ys angs : String) (q : ℚ) (xv yv angv : Int) :
    (argsGet args "duration" = some d → parseFloatJS d.data = some q →
      (sayM sp args).toOption.map (fun o => o.1.map stepDuration) =
        some [0, q * 1000, 0]) ∧
    (argsGet args "duration" = none →
      (sayM sp args).toOption.map (fun o => o.1.map stepDuration) =
        some [0, 2 * 1000, 0]) ∧
    (argsGet args "x" = some xs → parseIntJS xs.data = some xv →
      argsGet args "y" = some ys → parseIntJS ys.data = some yv →
      argsGet args "speed" = some d → parseFloatJS d.data = some q →
      (moveToM sp args).toOption.map (fun o => o.1.map stepDuration) =
        some [q * 1000]) ∧
    (argsGet args "x" = some xs → parseIntJS xs.data = some xv →
      argsGet args "y" = some ys → parseIntJS ys.data = some yv →
      argsGet args "speed" = none →
      (moveToM sp args).toOption.map (fun o => o.1.map stepDuration) =
        some [1 * 1000]) ∧
    (argsGet args "x" = some xs → parseIntJS xs.data = some xv →
      argsGet args "y" = some ys → parseIntJS ys.data = some yv →
      argsGet args "speed" = some d → parseFloatJS d.data = some q →
      (goToM sp args).toOption.map (fun o => o.1.map stepDuration) =
        some [q * 1000]) ∧
    (argsGet args "x" = some xs → parseIntJS xs.data = some xv →
      argsGet args "y" = some ys → parseIntJS ys.data = some yv →
      argsGet args "speed" = none →
      (goToM sp args).toOption.map (fun o => o.1.map stepDuration) =
        some [2 * 1000]) ∧
    (argsGet args "angle" = some angs → parseIntJS angs.data = some angv →
      argsGet args "speed" = some d → parseFloatJS d.data = some q →
      (rotateToM sp args).toOption.map (fun o => o.1.map stepDuration) =
        some [q * 1000]) ∧
    (argsGet args "angle" = some angs → parseIntJS angs.data = some angv →
      argsGet args "speed" = none →
      (rotateToM sp args).toOption.map (fun o => o.1.map stepDuration) =
        some [1 * 1000]) ∧
    (argsGet args "x" = some xs → parseIntJS xs.data = some xv →
      argsGet args "y" = some ys → parseIntJS ys.data = some yv →
      argsGet args "speed" = some d → parseFloatJS d.data = some q →
      (lookAtM sp args).toOption.map (fun o => o.1.map stepDuration) =
        some [q * 1000]) ∧
    (argsGet args "x" = some xs → parseIntJS xs.data = some xv →
      argsGet args "y" = some ys → parseIntJS ys.data = some yv →
      argsGet args "speed" = none →
      (lookAtM sp args).toOption.map (fun o => o.1.map stepDuration) =
        some [(0.5 : ℚ) * 1000]) ∧
    (argsGet args "speed" = some d → parseFloatJS d.data = some q →
      (setStyleM sp args).toOption.map (fun o => o.1.map stepDuration) =
        some (List.replicate (args.filter (fun p => p.1 ≠ "speed")).length
          (q * 1000))) ∧
    (argsGet args "speed" = none →
      (setStyleM sp args).toOption.map (fun o => o.1.map stepDuration) =
        some (List.replicate (args.filter (fun p => p.1 ≠ "speed")).length
          (1 * 1000))) ∧
    (parseFloatJS raw = some q →
      libHandler gen ctr vars "ai" "wait" args raw =
        some (.ok ([Step.WAIT (q * 1000)], ctr))) := by
  refine ⟨?_, ?_, ?_, ?_, ?_, ?_, ?_, ?_, ?_, ?_, ?_, ?_, ?_⟩
  · intro hdur hq
    unfold sayM
    rw [hdur]
    simp [jsOrStr, if_neg (parseFloat_ne_empty hq), hq, stepDuration, Except.toOption]
  · intro hdur
    unfold sayM
    rw [hdur]
    simp [jsOrStr, show parseFloatJS "2".data = some 2 from rfl, stepDuration, Except.toOption]
  · intro hx hxv hy hyv hs hq
    unfold moveToM
    rw [hx, hy, hs]
    simp [jsOrStr, if_neg (parseFloat_ne_empty hq), hq, hxv, hyv, stepDuration, Except.toOption]
  · intro hx hxv hy hyv hs
    unfold moveToM
    rw [hx, hy, hs]
    simp [jsOrStr, show parseFloatJS "1".data = some 1 from rfl, hxv, hyv, stepDuration, Except.toOption]
  · intro hx hxv hy hyv hs hq
    unfold goToM
    rw [hx, hy, hs]
    simp [jsOrStr, if_neg (parseFloat_ne_empty hq), hq, hxv, hyv, stepDuration, Except.toOption]
  · intro hx hxv hy hyv hs
    unfold goToM
    rw [hx, hy, hs]
    simp [jsOrStr, show parseFloatJS "2".data = some 2 from rfl, hxv, hyv, stepDuration, Except.toOption]
  · intro ha hav hs hq
    unfold rotateToM
    rw [ha, hs]
    simp [jsOrStr, if_neg (parseFloat_ne_empty hq), hq, hav, stepDuration, Except.toOption]
  · intro ha hav hs
    unfold rotateToM
    rw [ha, hs]
    simp [jsOrStr, show parseFloatJS "1".data = some 1 from rfl, hav, stepDuration, Except.toOption]
  · intro hx hxv hy hyv hs hq
    unfold lookAtM
    rw [hx, hy, hs]
    simp [jsOrStr, if_neg (parseFloat_ne_empty hq), hq, hxv, hyv, stepDuration, Except.toOption]
  · intro hx hxv hy hyv hs
    unfold lookAtM
    rw [hx, hy, hs]
    simp [jsOrStr, show parseFloatJS "0.5".data = some (0.5 : ℚ) from rfl,
      hxv, hyv, stepDuration, Except.toOption]
  · intro hs hq
    unfold setStyleM
    rw [hs]
    simp only [jsOrStr, if_neg (parseFloat_ne_empty hq), hq]
    simp [stepDuration, List.map_map, Function.comp, Except.toOption]
    exact map_const_eq_replicate _ _ _ (fun a => rfl)
  · intro hs
    unfold setStyleM
    rw [hs]
    simp only [jsOrStr, show parseFloatJS "1".data = some 1 from rfl]
    simp [stepDuration, List.map_map, Function.comp, Except.toOption]
    exact map_const_eq_replicate _ _ _ (fun a => rfl)
  · intro hq
    unfold libHandler
    simp [hq]

/-- Witness for C5 at concrete inputs: explicit and omitted durations for
each emitter. -/
theorem C5_duration_unit_law_witness :
    ((sayM ⟨7, "B", "cube", some 50, some 50, 0, 0, 0⟩
      [("duration", "3")]).toOption.map (fun o => o.1.map stepDuration) =
        some [0, 3 * 1000, 0]) ∧
    ((sayM ⟨7, "B", "cube", some 50, some 50, 0, 0, 0⟩
      []).toOption.map (fun o => o.1.map stepDuration) = some [0, 2 * 1000, 0]) ∧
    ((moveToM ⟨7, "B", "cube", some 50, some 50, 0, 0, 0⟩
      [("x", "10"), ("y", "20"), ("speed", "4")]).toOption.map
        (fun o => o.1.map stepDuration) = some [4 * 1000]) ∧
    ((moveToM ⟨7, "B", "cube", some 50, some 50, 0, 0, 0⟩
      [("x", "10"), ("y", "20")]).toOption.map
        (fun o => o.1.map stepDuration) = some [1 * 1000]) ∧
    ((goToM ⟨7, "B", "cube", some 50, some 50, 0, 0, 0⟩
      [("x", "10"), ("y", "20"), ("speed", "4")]).toOption.map
        (fun o => o.1.map stepDuration) = some [4 * 1000]) ∧
    ((goToM ⟨7, "B", "cube", some 50, some 50, 0, 0, 0⟩
      [("x", "10"), ("y", "20")]).toOption.map
        (fun o => o.1.map stepDuration) = some [2 * 1000]) ∧
    ((rotateToM ⟨7, "B", "cube", some 50, some 50, 0, 0, 0⟩
      [("angle", "30"), ("speed", "4")]).toOption.map
        (fun o => o.1.map stepDuration) = some [4 * 1000]) ∧
    ((rotateToM ⟨7, "B", "cube", some 50, some 50, 0, 0, 0⟩
      [("angle", "30")]).toOption.map
        (fun o => o.1.map stepDuration) = some [1 * 1000]) ∧
    ((lookAtM ⟨7, "B", "cube", some 50, some 50, 0, 0, 0⟩
      [("x", "10"), ("y", "20"), ("speed", "4")]).toOption.map
        (fun o => o.1.map stepDuration) = some [4 * 1000]) ∧
    ((lookAtM ⟨7, "B", "cube", some 50, some 50, 0, 0, 0⟩
      [("x", "10"), ("y", "20")]).toOption.map
        (fun o => o.1.map stepDuration) = some [(0.5 : ℚ) * 1000]) ∧
    ((setStyleM ⟨7, "B", "cube", some 50, some 50, 0, 0, 0⟩
      [("color", "red"), ("speed", "4")]).toOption.map
        (fun o => o.1.map stepDuration) =
        some (List.replicate
          ([("color", "red"), ("speed", "4")].filter
            (fun p => p.1 ≠ "speed")).length (4 * 1000))) ∧
    ((setStyleM ⟨7, "B", "cube", some 50, some 50, 0, 0, 0⟩
      [("color", "red")]).toOption.map
        (fun o => o.1.map stepDuration) =
        some (List.replicate
          ([("color", "red")].filter (fun p => p.1 ≠ "speed")).length
          (1 * 1000))) ∧
    (libHandler (fun j => j) 0 [] "ai" "wait" [] "2".data =
      some (.ok ([Step.WAIT (2 * 1000)], 0))) := by
  have hA := C5_duration_unit_law ⟨7, "B", "cube", some 50, some 50, 0, 0, 0⟩
    [("duration", "3")] (fun j => j) 0 [] "2".data "3" "10" "20" "30" 3 10 20 30
  have hB := C5_duration_unit_law ⟨7, "B", "cube", some 50, some 50, 0, 0, 0⟩
    [] (fun j => j) 0 [] "2".data "3" "10" "20" "30" 2 10 20 30
  have hC := C5_duration_unit_law ⟨7, "B", "cube", some 50, some 50, 0, 0, 0⟩
    [("x", "10"), ("y", "20"), ("speed", "4")] (fun j => j) 0 [] "2".data
    "4" "10" "20" "30" 4 10 20 30
  have hD := C5_duration_unit_law ⟨7, "B", "cube", some 50, some 50, 0, 0, 0⟩
    [("x", "10"), ("y", "20")] (fun j => j) 0 [] "2".data
    "4" "10" "20" "30" 4 10 20 30
  have hE := C5_duration_unit_law ⟨7, "B", "cube", some 50, some 50, 0, 0, 0⟩
    [("angle", "30"), ("speed", "4")] (fun j => j) 0 [] "2".data
    "4" "10" "20" "30" 4 10 20 30
  have hF := C5_duration_unit_law ⟨7, "B", "cube", some 50, some 50, 0, 0, 0⟩
    [("angle", "30")] (fun j => j) 0 [] "2".data
    "4" "10" "20" "30" 4 10 20 30
  have hG := C5_duration_unit_law ⟨7, "B", "cube", some 50, some 50, 0, 0, 0⟩
    [("color", "red"), ("speed", "4")] (fun j => j) 0 [] "2".data
    "4" "10" "20" "30" 4 10 20 30
  have hH := C5_duration_unit_law ⟨7, "B", "cube", some 50, some 50, 0, 0, 0⟩
    [("color", "red")] (fun j => j) 0 [] "2".data
    "4" "10" "20" "30" 4 10 20 30
  refine ⟨hA.1 rfl rfl, hB.2.1 rfl, ?_, ?_, ?_, ?_, ?_, ?_, ?_, ?_, ?_, ?_, ?_⟩
  · exact hC.2.2.1 rfl rfl rfl rfl rfl rfl
  · exact hD.2.2.2.1 rfl rfl rfl rfl rfl
  · exact hC.2.2.2.2.1 rfl rfl rfl rfl rfl rfl
  · exact hD.2.2.2.2.2.1 rfl rfl rfl rfl rfl
  · exact hE.2.2.2.2.2.2.1 rfl rfl rfl rfl
  · exact hF.2.2.2.2.2.2.2.1 rfl rfl rfl
  · exact hC.2.2.2.2.2.2.2.2.1 rfl rfl rfl rfl rfl rfl
  · exact hD.2.2.2.2.2.2.2.2.2.1 rfl rfl rfl rfl rfl
  · exact hG.2.2.2.2.2.2.2.2.2.2.1 rfl rfl
  · exact hH.2.2.2.2.2.2.2.2.2.2.2.1 rfl
  · exact hB.2.2.2.2.2.2.2.2.2.2.2.2 rfl

/-- The first failing line is at or after the current line counter. -/
theorem firstFail_ge (gen : Nat → Nat) :
    ∀ (l : List (List Char)) (n : Nat) (st : LoopSt) (k : Nat) (m : String),
    firstFailAux gen l n st = some (k, m) → n ≤ k := by
  intro l
  induction l with
  | nil => intro n st k m h; simp [firstFailAux] at h
  | cons a rest ih =>
    intro n st k m h
    cases hl : lineStep gen st a with
    | none =>
      simp only [firstFailAux, hl] at h
      exact Nat.le_of_succ_le (ih _ _ _ _ h)
    | some r =>
      cases r with
      | ok st' =>
        simp only [firstFailAux, hl] at h
        exact Nat.le_of_succ_le (ih _ _ _ _ h)
      | error m' =>
        simp only [firstFailAux, hl, Option.some.injEq, Prod.mk.injEq] at h
        exact h.1 ▸ Nat.le_refl n

/-- When the scan finds its first failure at line `k`, the loop returns the
singleton problem list `[(k, m)]` and discards all steps. -/
theorem runLines_of_firstFail (gen : Nat → Nat) :
    ∀ (l : List (List Char)) (n : Nat) (st : LoopSt) (k : Nat) (m : String)
      (total : Nat),
    firstFailAux gen l n st = some (k, m) →
    (runLines gen total l n st).1.problems = [(k, m)] ∧
    (runLines gen total l n st).1.steps = [] := by
  intro l
  induction l with
  | nil => intro n st k m total h; simp [firstFailAux] at h
  | cons a rest ih =>
    intro n st k m total h
    cases hl : lineStep gen st a with
    | none =>
      simp only [firstFailAux, hl] at h
      simp only [runLines, hl]
      exact ih _ _ _ _ _ h
    | some r =>
      cases r with
      | ok st' =>
        simp only [firstFailAux, hl] at h
        simp only [runLines, hl]
        exact ih _ _ _ _ _ h
      | error m' =>
        simp only [firstFailAux, hl, Option.some.injEq, Prod.mk.injEq] at h
        obtain ⟨rfl, rfl⟩ := h
        simp [runLines, hl]

/-- The scan's result only depends on the lines up to the failure. -/
theorem firstFail_append (gen : Nat → Nat) :
    ∀ (l1 : List (List Char)) (n : Nat) (st : LoopSt) (k : Nat) (m : String)
      (l2 : List (List Char)),
    firstFailAux gen l1 n st = some (k, m) →
    firstFailAux gen (l1 ++ l2) n st = some (k, m) := by
  intro l1
  induction l1 with
  | nil => intro n st k m l2 h; simp [firstFailAux] at h
  | cons a rest ih =>
    intro n st k m l2 h
    cases hl : lineStep gen st a with
    | none =>
      simp only [firstFailAux, hl] at h
      simp only [List.cons_append, firstFailAux, hl]
      exact ih _ _ _ _ _ h
    | some r =>
      cases r with
      | ok st' =>
        simp only [firstFailAux, hl] at h
        simp only [List.cons_append, firstFailAux, hl]
        exact ih _ _ _ _ _ h
      | error m' =>
        simp only [firstFailAux, hl] at h
        simp only [List.cons_append, firstFailAux, hl]
        exact h

/-- Truncating the line list right after the first failure preserves the
scan's result. -/
theorem firstFail_take (gen : Nat → Nat) :
    ∀ (l : List (List Char)) (n : Nat) (st : LoopSt) (k : Nat) (m : String),
    firstFailAux gen l n st = some (k, m) →
    firstFailAux gen (l.take (k + 1 - n)) n st = some (k, m) := by
  intro l
  induction l with
  | nil => intro n st k m h; simp [firstFailAux] at h
  | cons a rest ih =>
    intro n st k m h
    cases hl : lineStep gen st a with
    | none =>
      simp only [firstFailAux, hl] at h
      have hge : n + 1 ≤ k := firstFail_ge gen _ _ _ _ _ h
      have harith : k + 1 - n = (k + 1 - (n + 1)) + 1 := by omega
      rw [harith, List.take_succ_cons]
      simp only [firstFailAux, hl]
      exact ih _ _ _ _ h
    | some r =>
      cases r with
      | ok st' =>
        simp only [firstFailAux, hl] at h
        have hge : n + 1 ≤ k := firstFail_ge gen _ _ _ _ _ h
        have harith : k + 1 - n = (k + 1 - (n + 1)) + 1 := by omega
        rw [harith, List.take_succ_cons]
        simp only [firstFailAux, hl]
        exact ih _ _ _ _ h
      | error m' =>
        simp only [firstFailAux, hl, Option.some.injEq, Prod.mk.injEq] at h
        obtain ⟨rfl, rfl⟩ := h
        have : n + 1 - n = 1 := by omega
        rw [this, List.take_succ_cons, List.take_zero]
        simp [firstFailAux, hl]

/-- After the first failure, the remaining lines have no effect on
problems, steps, or logs. -/
theorem runLines_append_of_firstFail (gen : Nat → Nat) :
    ∀ (l1 : List (List Char)) (n : Nat) (st : LoopSt) (k : Nat) (m : String)
      (l2 l2' : List (List Char)) (total total' : Nat),
    firstFailAux gen l1 n st = some (k, m) →
    (runLines gen total (l1 ++ l2) n st).1.problems =
      (runLines gen total' (l1 ++ l2') n st).1.problems ∧
    (runLines gen total (l1 ++ l2) n st).1.steps =
      (runLines gen total' (l1 ++ l2') n st).1.steps ∧
    (runLines gen total (l1 ++ l2) n st).1.logs =
      (runLines gen total' (l1 ++ l2') n st).1.logs := by
  intro l1
  induction l1 with
  | nil => intro n st k m l2 l2' total total' h; simp [firstFailAux] at h
  | cons a rest ih =>
    intro n st k m l2 l2' total total' h
    cases hl : lineStep gen st a with
    | none =>
      simp only [firstFailAux, hl] at h
      simp only [List.cons_append, runLines, hl]
      exact ih _ _ _ _ _ _ _ _ h
    | some r =>
      cases r with
      | ok st' =>
        simp only [firstFailAux, hl] at h
        simp only [List.cons_append, runLines, hl]
        exact ih _ _ _ _ _ _ _ _ h
      | error m' =>
        simp [List.cons_append, runLines, hl]

/-- **C2** — Abort-on-first-error: when line `k` (1-based) is the first
line of `code` that fails (`firstFailure` mirrors the loop: blank and
comment lines never fail), `parseUniversalCode` returns exactly one problem,
at line `k` with that message, and an empty steps list; moreover the lines
after `k` contribute nothing: replacing them arbitrarily leaves the
problems, the steps, and the logs of the result unchanged. -/
theorem C2_abort_on_first_error (code : String) (gen : Nat → Nat) (k : Nat)
    (m : String) (h : firstFailure code gen = some (k, m)) :
    (parseUniversalCode code gen).problems = [(k, m)] ∧
    (parseUniversalCode code gen).steps = [] ∧
    ∀ rest total,
      (runLines gen total ((splitLines code).take k ++ rest) 1 initSt).1.problems =
        [(k, m)] ∧
      (runLines gen total ((splitLines code).take k ++ rest) 1 initSt).1.steps = [] ∧
      (runLines gen total ((splitLines code).take k ++ rest) 1 initSt).1.logs =
        (parseUniversalCode code gen).logs := by
  have h0 : firstFailAux gen (splitLines code) 1 initSt = some (k, m) := h
  have hmain := runLines_of_firstFail gen (splitLines code) 1 initSt k m
    (splitLines code).length h0
  have htake := firstFail_take gen (splitLines code) 1 initSt k m h0
  rw [Nat.add_sub_cancel] at htake
  refine ⟨hmain.1, hmain.2, ?_⟩
  intro rest total
  have hfr := firstFail_append gen _ 1 initSt k m rest htake
  have hmr := runLines_of_firstFail gen _ 1 initSt k m total hfr
  have hlogs := (runLines_append_of_firstFail gen ((splitLines code).take k) 1
    initSt k m rest ((splitLines code).drop k) total (splitLines code).length
    htake).2.2
  rw [List.take_append_drop] at hlogs
  exact ⟨hmr.1, hmr.2, hlogs⟩

/-- Witness for C2: the script whose line 2 calls an unimported library
fails exactly there. -/
theorem C2_abort_on_first_error_witness :
    (parseUniversalCode "import ai\nworld.set_background(color: \"red\")\nai.wait(1)"
      (fun j => j)).problems =
      [(2, "Library " ++ sqS ++ "world" ++ sqS ++ " not imported. Add " ++ sqS ++
        "import world" ++ sqS ++ " to the top of your file.")] ∧
    (parseUniversalCode "import ai\nworld.set_background(color: \"red\")\nai.wait(1)"
      (fun j => j)).steps = [] :=
  ⟨(C2_abort_on_first_error
      "import ai\nworld.set_background(color: \"red\")\nai.wait(1)" (fun j => j) 2
      ("Library " ++ sqS ++ "world" ++ sqS ++ " not imported. Add " ++ sqS ++
        "import world" ++ sqS ++ " to the top of your file.") (by decide)).1,
    (C2_abort_on_first_error
      "import ai\nworld.set_background(color: \"red\")\nai.wait(1)" (fun j => j) 2
      ("Library " ++ sqS ++ "world" ++ sqS ++ " not imported. Add " ++ sqS ++
        "import world" ++ sqS ++ " to the top of your file.") (by decide)).2.1⟩

/-- `createIds` distributes over append. -/
theorem createIds_append (l l' : List Step) :
    createIds (l ++ l') = createIds l ++ createIds l' :=
  List.filterMap_append l l' _

/-- Appending one step whose sprite reference (if any) is already created
preserves `GoodSteps`. -/
theorem goodSteps_snoc {l : List Step} {s : Step} (hg : GoodSteps l)
    (hs : ∀ sid, stepRefId s = some sid → sid ∈ createIds l) :
    GoodSteps (l ++ [s]) := by
  intro i hi sid href
  by_cases hil : i < l.length
  · rw [List.getElem_append_left hil] at href
    have htake : (l ++ [s]).take i = l.take i := by
      rw [List.take_append_eq_append_take, Nat.sub_eq_zero_of_le (le_of_lt hil),
        List.take_zero, List.append_nil]
    rw [htake]
    exact hg i hil sid href
  · have hieq : i = l.length := by
      have := List.length_append l [s] ▸ hi
      simp only [List.length_singleton] at this
      omega
    rw [List.getElem_concat_length l s i hieq hi] at href
    subst hieq
    have htake : (l ++ [s]).take l.length = l := List.take_left l [s]
    rw [htake]
    exact hs sid href

/-- Appending a batch whose references all point at already-created sprites
preserves `GoodSteps`. -/
theorem goodSteps_append {l new : List Step} (hg : GoodSteps l)
    (hrefs : ∀ s ∈ new, ∀ sid, stepRefId s = some sid → sid ∈ createIds l) :
    GoodSteps (l ++ new) := by
  induction new generalizing l with
  | nil => simpa using hg
  | cons x xs ih =>
    have h1 : GoodSteps (l ++ [x]) :=
      goodSteps_snoc hg (fun sid h => hrefs x (by simp) sid h)
    have h2 : ∀ s ∈ xs, ∀ sid, stepRefId s = some sid →
        sid ∈ createIds (l ++ [x]) := by
      intro s hsx sid h
      rw [createIds_append]
      exact List.mem_append_left _ (hrefs s (by simp [hsx]) sid h)
    have h3 := ih h1 h2
    rw [List.append_assoc, List.singleton_append] at h3
    exact h3

/-- An id already created stays created after an append. -/
theorem createIds_mono {l : List Step} (new : List Step) {sid : Nat}
    (h : sid ∈ createIds l) : sid ∈ createIds (l ++ new) := by
  rw [createIds_append]
  exact List.mem_append_left _ h

/-- A successful `variables.get` means the binding is in the table. -/
theorem varsGet_mem :
    ∀ (vars : List (String × USprite)) (k : String) (sp : USprite),
    varsGet vars k = some sp → (k, sp) ∈ vars := by
  intro vars
  induction vars with
  | nil => intro k sp h; simp [varsGet] at h
  | cons p rest ih =>
    intro k sp h
    obtain ⟨k', v⟩ := p
    by_cases hk : k' = k
    · simp only [varsGet, if_pos hk, Option.some.injEq] at h
      subst hk; subst h
      exact List.mem_cons_self _ _
    · simp only [varsGet, if_neg hk] at h
      exact List.mem_cons_of_mem _ (ih _ _ h)

/-- Every binding after `varsUpdate` is an old binding or carries the new
sprite. -/
theorem varsUpdate_mem :
    ∀ (vars : List (String × USprite)) (k : String) (v : USprite)
      (p : String × USprite),
    p ∈ varsUpdate vars k v → p.2 = v ∨ p ∈ vars := by
  intro vars
  induction vars with
  | nil => intro k v p h; simp [varsUpdate] at h
  | cons q rest ih =>
    intro k v p h
    obtain ⟨k', v'⟩ := q
    by_cases hk : k' = k
    · simp only [varsUpdate, if_pos hk] at h
      rcases List.mem_cons.mp h with h1 | h1
      · exact Or.inl (by rw [h1])
      · exact Or.inr (List.mem_cons_of_mem _ h1)
    · simp only [varsUpdate, if_neg hk] at h
      rcases List.mem_cons.mp h with h1 | h1
      · exact Or.inr (by rw [h1]; exact List.mem_cons_self _ _)
      · rcases ih _ _ _ h1 with h2 | h2
        · exact Or.inl h2
        · exact Or.inr (List.mem_cons_of_mem _ h2)

/-- Every sprite reference a library handler emits is the id of a sprite
already bound in the variable table. -/
theorem libHandler_refs (gen : Nat → Nat) (ctr : Nat)
    (vars : List (String × USprite)) (lib m : String) (args : Args)
    (raw : List Char) (new : List Step) (ctr' : Nat)
    (h : libHandler gen ctr vars lib m args raw = some (.ok (new, ctr'))) :
    ∀ s ∈ new, ∀ sid, stepRefId s = some sid → ∃ p ∈ vars, p.2.id = sid := by
  unfold libHandler at h
  split_ifs at h
  -- world.set_background
  · rw [Option.some.injEq] at h
    try simp only [] at h
    split at h
    · exact Except.noConfusion h
    · rw [Except.ok.injEq, Prod.mk.injEq] at h
      obtain ⟨h1, h2⟩ := h
      subst h1
      intro s hs sid href
      simp only [List.mem_singleton] at hs
      subst hs
      simp [stepRefId] at href
  -- world.create_zone
  · rw [Option.some.injEq] at h
    try simp only [] at h
    split at h
    · rw [Except.ok.injEq, Prod.mk.injEq] at h
      obtain ⟨h1, h2⟩ := h
      subst h1
      intro s hs sid href
      simp only [List.mem_singleton] at hs
      subst hs
      simp [stepRefId] at href
    · exact Except.noConfusion h
  -- physics.set_gravity
  · rw [Option.some.injEq] at h
    try simp only [] at h
    split at h
    · exact Except.noConfusion h
    · rw [Except.ok.injEq, Prod.mk.injEq] at h
      obtain ⟨h1, h2⟩ := h
      subst h1
      intro s hs sid href
      simp only [List.mem_singleton] at hs
      subst hs
      simp [stepRefId] at href
  -- sound.play
  · rw [Option.some.injEq] at h
    try simp only [] at h
    split at h
    · rw [Except.ok.injEq, Prod.mk.injEq] at h
      obtain ⟨h1, h2⟩ := h
      subst h1
      intro s hs sid href
      simp only [List.mem_singleton] at hs
      subst hs
      simp [stepRefId] at href
    · exact Except.noConfusion h
  -- neurons.create_network
  · rw [Option.some.injEq] at h
    try simp only [] at h
    revert h
    cases hb : (argsGet args "sprite").bind (varsGet vars) with
    | none => intro h; exact Except.noConfusion h
    | some sp =>
      intro h
      try simp only [] at h
      rw [Except.ok.injEq, Prod.mk.injEq] at h
      obtain ⟨h1, h2⟩ := h
      subst h1
      intro s hs sid href
      simp only [List.mem_singleton] at hs
      subst hs
      simp only [stepRefId, Option.some.injEq] at href
      obtain ⟨key, hkey, hvg⟩ := Option.bind_eq_some.mp hb
      exact ⟨(key, sp), varsGet_mem vars key sp hvg, href⟩
  -- neurons.reward
  · rw [Option.some.injEq] at h
    revert h
    cases hb : (argsGet args "sprite").bind (varsGet vars) with
    | none => intro h; exact Except.noConfusion h
    | some sp =>
      cases hv : parseFloatJS (jsOrStr (argsGet args "value") "1").data with
      | none => intro h; exact Except.noConfusion h
      | some q =>
        intro h
        try simp only [] at h
        rw [Except.ok.injEq, Prod.mk.injEq] at h
        obtain ⟨h1, h2⟩ := h
        subst h1
        intro s hs sid href
        simp only [List.mem_singleton] at hs
        subst hs
        simp only [stepRefId, Option.some.injEq] at href
        obtain ⟨key, hkey, hvg⟩ := Option.bind_eq_some.mp hb
        exact ⟨(key, sp), varsGet_mem vars key sp hvg, href⟩
  -- ai.wait
  · rw [Option.some.injEq] at h
    try simp only [] at h
    split at h
    · exact Except.noConfusion h
    · rw [Except.ok.injEq, Prod.mk.injEq] at h
      obtain ⟨h1, h2⟩ := h
      subst h1
      intro s hs sid href
      simp only [List.mem_singleton] at hs
      subst hs
      simp [stepRefId] at href
  -- ai.create_prop
  · rw [Option.some.injEq] at h
    try simp only [] at h
    split at h
    · rw [Except.ok.injEq, Prod.mk.injEq] at h
      obtain ⟨h1, h2⟩ := h
      subst h1
      intro s hs sid href
      simp only [List.mem_singleton] at hs
      subst hs
      simp [stepRefId] at href
    · exact Except.noConfusion h

/-- Every sprite reference a sprite method emits is the receiver's id, and
no method changes the receiver's id. -/
theorem runSpriteMethod_refs (objName m : String) (sp : USprite) (args : Args)
    (new : List Step) (sp' : USprite)
    (h : runSpriteMethod objName m sp args = .ok (new, sp')) :
    (∀ s ∈ new, ∀ sid, stepRefId s = some sid → sid = sp.id) ∧ sp'.id = sp.id := by
  unfold runSpriteMethod at h
  split_ifs at h
  -- say
  · unfold sayM at h
    try simp only [] at h
    split at h
    · exact Except.noConfusion h
    · rw [Except.ok.injEq, Prod.mk.injEq] at h
      obtain ⟨h1, h2⟩ := h
      subst h1; subst h2
      refine ⟨?_, rfl⟩
      intro s hs sid href
      rcases List.mem_cons.mp hs with rfl | hs
      · simp only [stepRefId, Option.some.injEq] at href; exact href.symm
      rcases List.mem_cons.mp hs with rfl | hs
      · simp [stepRefId] at href
      rcases List.mem_cons.mp hs with rfl | hs
      · simp only [stepRefId, Option.some.injEq] at href; exact href.symm
      · simp at hs
  -- chat
  · unfold chatM at h
    try simp only [] at h
    rw [Except.ok.injEq, Prod.mk.injEq] at h
    obtain ⟨h1, h2⟩ := h
    subst h1; subst h2
    refine ⟨?_, rfl⟩
    intro s hs sid href
    rcases List.mem_cons.mp hs with rfl | hs
    · simp only [stepRefId, Option.some.injEq] at href; exact href.symm
    · simp at hs
  -- move_to
  · unfold moveToM at h
    try simp only [] at h
    split at h
    · split at h
      · exact Except.noConfusion h
      · rw [Except.ok.injEq, Prod.mk.injEq] at h
        obtain ⟨h1, h2⟩ := h
        subst h1; subst h2
        refine ⟨?_, rfl⟩
        intro s hs sid href
        rcases List.mem_cons.mp hs with rfl | hs
        · simp only [stepRefId, Option.some.injEq] at href; exact href.symm
        · simp at hs
    · exact Except.noConfusion h
  -- go_to
  · unfold goToM at h
    try simp only [] at h
    split at h
    · split at h
      · exact Except.noConfusion h
      · rw [Except.ok.injEq, Prod.mk.injEq] at h
        obtain ⟨h1, h2⟩ := h
        subst h1; subst h2
        refine ⟨?_, rfl⟩
        intro s hs sid href
        rcases List.mem_cons.mp hs with rfl | hs
        · simp only [stepRefId, Option.some.injEq] at href; exact href.symm
        · simp at hs
    · exact Except.noConfusion h
  -- rotate_to
  · unfold rotateToM at h
    try simp only [] at h
    split at h
    · split at h
      · exact Except.noConfusion h
      · rw [Except.ok.injEq, Prod.mk.injEq] at h
        obtain ⟨h1, h2⟩ := h
        subst h1; subst h2
        refine ⟨?_, rfl⟩
        intro s hs sid href
        rcases List.mem_cons.mp hs with rfl | hs
        · simp only [stepRefId, Option.some.injEq] at href; exact href.symm
        · simp at hs
    · exact Except.noConfusion h
  -- look_at
  · unfold lookAtM at h
    try simp only [] at h
    split at h
    · split at h
      · exact Except.noConfusion h
      · rw [Except.ok.injEq, Prod.mk.injEq] at h
        obtain ⟨h1, h2⟩ := h
        subst h1; subst h2
        refine ⟨?_, rfl⟩
        intro s hs sid href
        rcases List.mem_cons.mp hs with rfl | hs
        · simp only [stepRefId, Option.some.injEq] at href; exact href.symm
        · simp at hs
    · exact Except.noConfusion h
  -- set_style
  · unfold setStyleM at h
    try simp only [] at h
    split at h
    · exact Except.noConfusion h
    · rw [Except.ok.injEq, Prod.mk.injEq] at h
      obtain ⟨h1, h2⟩ := h
      subst h1; subst h2
      refine ⟨?_, rfl⟩
      intro s hs sid href
      rcases List.mem_map.mp hs with ⟨p, _, rfl⟩
      simp only [stepRefId, Option.some.injEq] at href
      exact href.symm
  -- Object.prototype no-op
  · rw [Except.ok.injEq, Prod.mk.injEq] at h
    obtain ⟨h1, h2⟩ := h
    subst h1; subst h2
    refine ⟨?_, rfl⟩
    intro s hs sid href
    simp at hs

/-- `addImports` only touches the import set and never the steps, the
variables, or the draw counter. -/
theorem addImports_preserves :
    ∀ (libs : List String) (st st1 : LoopSt), addImports libs st = .ok st1 →
    st1.steps = st.steps ∧ st1.vars = st.vars := by
  intro libs
  induction libs with
  | nil =>
    intro st st1 h
    rw [addImports, Except.ok.injEq] at h
    subst h
    exact ⟨rfl, rfl⟩
  | cons lib rest ih =>
    intro st st1 h
    rw [addImports] at h
    split at h
    · have h2 := ih _ _ h
      exact ⟨h2.1, h2.2⟩
    · exact Except.noConfusion h

/-- One successful line preserves the reference invariant: the steps list
stays well-referenced and every bound sprite's id has a `CREATE_SPRITE`. -/
theorem processLine_inv (gen : Nat → Nat) (st : LoopSt) (t : List Char)
    (st' : LoopSt) (h : processLine gen st t = .ok st')
    (hg : GoodSteps st.steps)
    (hv : ∀ p ∈ st.vars, p.2.id ∈ createIds st.steps) :
    GoodSteps st'.steps ∧ ∀ p ∈ st'.vars, p.2.id ∈ createIds st'.steps := by
  unfold processLine at h
  cases him : matchImport t with
  | some libs =>
    simp only [him] at h
    revert h
    cases ha : addImports libs st with
    | error e => intro h; exact Except.noConfusion h
    | ok st1 =>
      intro h
      rw [Except.ok.injEq] at h
      subst h
      obtain ⟨hsteps, hvars⟩ := addImports_preserves libs st st1 ha
      constructor
      · simpa only [hsteps] using hg
      · intro p hp
        rw [hvars] at hp
        rw [hsteps]
        exact hv p hp
  | none =>
    simp only [him] at h
    cases hcr : matchCreation t with
    | some pr =>
      obtain ⟨varName, argsChars⟩ := pr
      simp only [hcr] at h
      split at h
      · exact Except.noConfusion h
      · revert h
        cases hmk : mkSprite gen st.ctr (parseArgs argsChars) with
        | error e => intro h; exact Except.noConfusion h
        | ok sp =>
          intro h
          try simp only [] at h
          split at h
          · exact Except.noConfusion h
          · split at h
            · exact Except.noConfusion h
            · rw [Except.ok.injEq] at h
              subst h
              constructor
              · exact goodSteps_append hg
                  (by intro s hs sid href
                      simp only [List.mem_singleton] at hs
                      subst hs
                      simp [stepRefId] at href)
              · intro p hp
                rcases List.mem_append.mp hp with hp | hp
                · exact createIds_mono _ (hv p hp)
                · simp only [List.mem_singleton] at hp
                  subst hp
                  rw [createIds_append]
                  refine List.mem_append_right _ ?_
                  simp [createIds, snapOf]
    | none =>
      simp only [hcr] at h
      cases hpr : matchPrint t with
      | some raw =>
        simp only [hpr] at h
        rw [Except.ok.injEq] at h
        subst h
        constructor
        · exact goodSteps_append hg
            (by intro s hs sid href
                simp only [List.mem_singleton] at hs
                subst hs
                simp [stepRefId] at href)
        · intro p hp
          exact createIds_mono _ (hv p hp)
      | none =>
        simp only [hpr] at h
        cases hcl : matchCall t with
        | some tr =>
          obtain ⟨name, m, argsChars⟩ := tr
          simp only [hcl] at h
          try simp only [] at h
          split at h
          · exact Except.noConfusion h
          · revert h
            cases hlh : libHandler gen st.ctr st.vars name m
                (parseArgs argsChars) argsChars with
            | some r =>
              cases r with
              | error e => intro h; exact Except.noConfusion h
              | ok pr =>
                obtain ⟨new, ctr'⟩ := pr
                intro h
                rw [Except.ok.injEq] at h
                subst h
                constructor
                · refine goodSteps_append hg ?_
                  intro s hs sid href
                  obtain ⟨p, hp, hpid⟩ :=
                    libHandler_refs gen st.ctr st.vars name m
                      (parseArgs argsChars) argsChars new ctr' hlh s hs sid href
                  exact hpid ▸ hv p hp
                · intro p hp
                  exact createIds_mono _ (hv p hp)
            | none =>
              cases hvg : varsGet st.vars name with
              | none =>
                intro h
                try simp only [] at h
                exact Except.noConfusion h
              | some sp =>
                intro h
                try simp only [] at h
                revert h
                cases hm : runSpriteMethod name m sp (parseArgs argsChars) with
                | error e =>
                  intro h
                  try simp only [] at h
                  exact Except.noConfusion h
                | ok pr =>
                  obtain ⟨new, sp'⟩ := pr
                  intro h
                  try simp only [] at h
                  rw [Except.ok.injEq] at h
                  subst h
                  obtain ⟨hrefs, hid⟩ :=
                    runSpriteMethod_refs name m sp (parseArgs argsChars) new sp' hm
                  have hspmem : (name, sp) ∈ st.vars := varsGet_mem _ _ _ hvg
                  have hspc : sp.id ∈ createIds st.steps := hv (name, sp) hspmem
                  constructor
                  · refine goodSteps_append hg ?_
                    intro s hs sid href
                    exact (hrefs s hs sid href) ▸ hspc
                  · intro p hp
                    rcases varsUpdate_mem st.vars name sp' p hp with hp2 | hp2
                    · refine createIds_mono _ ?_
                      rw [hp2, hid]
                      exact hspc
                    · exact createIds_mono _ (hv p hp2)
        | none =>
          simp only [hcl] at h
          exact Except.noConfusion h

/-- The loop maintains the reference invariant, so the returned step list
is always well-referenced (on the abort path it is empty). -/
theorem runLines_good (gen : Nat → Nat) :
    ∀ (l : List (List Char)) (n : Nat) (st : LoopSt) (total : Nat),
    GoodSteps st.steps → (∀ p ∈ st.vars, p.2.id ∈ createIds st.steps) →
    GoodSteps ((runLines gen total l n st).1.steps) := by
  intro l
  induction l with
  | nil =>
    intro n st total hg hv
    simpa only [runLines] using hg
  | cons a rest ih =>
    intro n st total hg hv
    cases hl : lineStep gen st a with
    | none =>
      simp only [runLines, hl]
      exact ih _ _ _ hg hv
    | some r =>
      cases r with
      | ok st' =>
        simp only [runLines, hl]
        have hpl : processLine gen st (jsTrim (stripComment (jsTrim a))) = .ok st' := by
          unfold lineStep at hl
          try simp only [] at hl
          split at hl
          · exact Option.noConfusion hl
          · rw [Option.some.injEq] at hl
            exact hl
        obtain ⟨hg', hv'⟩ := processLine_inv gen st _ st' hpl hg hv
        exact ih _ _ _ hg' hv'
      | error m =>
        simp only [runLines, hl]
        intro i hi sid href
        simp at hi

/-- **C10** — In every successful parse (empty problems), each emitted step
that carries a `spriteId` reference (SAY, CLEAR_MESSAGE, MOVE_TO, GO_TO,
ROTATE_TO, LOOK_AT, SET_STYLE, AI_CHAT_REQUEST, CREATE_NETWORK,
REWARD_SPRITE) refers to the id of the sprite snapshot of a `CREATE_SPRITE`
step strictly earlier in the returned sequence: method steps use the id of
an already-constructed bound sprite, and `neurons.*` resolve their sprite
through the binding table, whose entries all stem from constructions that
pushed their `CREATE_SPRITE` first. -/
theorem C10_sprite_refs_created_earlier (code : String) (gen : Nat → Nat)
    (hok : (parseUniversalCode code gen).problems = [])
    (i : Nat) (hi : i < (parseUniversalCode code gen).steps.length) (sid : Nat)
    (href : stepRefId (parseUniversalCode code gen).steps[i] = some sid) :
    ∃ j, ∃ hj : j < (parseUniversalCode code gen).steps.length, j < i ∧
      ∃ sp d, (parseUniversalCode code gen).steps[j] = Step.CREATE_SPRITE sp d ∧
        sp.id = sid := by
  have hgood : GoodSteps (parseUniversalCode code gen).steps := by
    have hInit1 : GoodSteps initSt.steps := by
      intro i hi sid h
      simp [initSt] at hi
    have hInit2 : ∀ p ∈ initSt.vars, p.2.id ∈ createIds initSt.steps := by
      simp [initSt]
    exact runLines_good gen _ 1 initSt _ hInit1 hInit2
  have hmem := hgood i hi sid href
  rw [createIds] at hmem
  obtain ⟨s, hsmem, hsome⟩ := List.mem_filterMap.mp hmem
  obtain ⟨j, hjlen, hjget⟩ := List.mem_iff_getElem.mp hsmem
  have hjlen2 := hjlen
  rw [List.length_take] at hjlen2
  have hjlt : j < i := lt_of_lt_of_le hjlen2 (min_le_left _ _)
  have hjlen' : j < (parseUniversalCode code gen).steps.length :=
    lt_of_lt_of_le hjlen2 (min_le_right _ _)
  rw [List.getElem_take] at hjget
  cases s
  case CREATE_SPRITE sp d =>
    simp only [Option.some.injEq] at hsome
    exact ⟨j, hjlen', hjlt, sp, d, hjget, hsome⟩
  all_goals simp at hsome

/-- Witness for C10: in the specification's example script, the SAY step at
index 1 references the id created by the CREATE_SPRITE step at index 0. -/
theorem C10_sprite_refs_created_earlier_witness :
    ∃ j, ∃ hj : j < (parseUniversalCode exampleScript (fun x => x)).steps.length,
      j < 1 ∧ ∃ sp d,
        (parseUniversalCode exampleScript (fun x => x)).steps[j] =
          Step.CREATE_SPRITE sp d ∧ sp.id = 0 :=
  C10_sprite_refs_created_earlier exampleScript (fun x => x) rfl 1
    (by decide) 0 (by decide)

/-- Sprites equal up to id have equal names. -/
theorem scrub_name {sp1 sp2 : USprite} (h : scrubSprite sp1 = scrubSprite sp2) :
    sp1.name = sp2.name := by
  have h2 : (scrubSprite sp1).name = (scrubSprite sp2).name := congrArg USprite.name h
  exact h2

/-- Sprites equal up to id have equal id-scrubbed snapshots. -/
theorem snap_scrub {sp1 sp2 : USprite} (h : scrubSprite sp1 = scrubSprite sp2) :
    ({ snapOf sp1 with id := 0 } : SpriteSnap) = { snapOf sp2 with id := 0 } := by
  obtain ⟨i1, n1, s1, x1, y1, vx1, vy1, r1⟩ := sp1
  obtain ⟨i2, n2, s2, x2, y2, vx2, vy2, r2⟩ := sp2
  simp only [scrubSprite, USprite.mk.injEq] at h
  simp only [snapOf, SpriteSnap.mk.injEq]
  exact h

/-- The constructor produces, for any two id supplies, sprites that are
equal up to the drawn id (or the same error). -/
theorem mkSprite_rel (gen1 gen2 : Nat → Nat) (ctr : Nat) (args : Args) :
    Except.map scrubSprite (mkSprite gen1 ctr args) =
    Except.map scrubSprite (mkSprite gen2 ctr args) := by
  unfold mkSprite
  cases argsGet args "name" with
  | none => rfl
  | some nm =>
    by_cases hnm : nm = "" <;> simp [hnm, scrubSprite, Except.map]

/-- `variables.get` on tables equal up to sprite ids returns results equal
up to sprite ids. -/
theorem varsGet_rel :
    ∀ (v1 v2 : List (String × USprite)),
    v1.map (fun p => (p.1, scrubSprite p.2)) =
      v2.map (fun p => (p.1, scrubSprite p.2)) →
    ∀ k, Option.map scrubSprite (varsGet v1 k) =
      Option.map scrubSprite (varsGet v2 k) := by
  intro v1
  induction v1 with
  | nil =>
    intro v2 h k
    cases v2 with
    | nil => rfl
    | cons q r => simp at h
  | cons p rest ih =>
    intro v2 h k
    cases v2 with
    | nil => simp at h
    | cons q rest2 =>
      obtain ⟨p1, p2⟩ := p
      obtain ⟨q1, q2⟩ := q
      simp only [List.map_cons, List.cons.injEq, Prod.mk.injEq] at h
      obtain ⟨⟨hk, hs⟩, hrest⟩ := h
      subst hk
      by_cases hkk : p1 = k
      · simp [varsGet, hkk, hs]
      · simp only [varsGet, if_neg hkk]
        exact ih rest2 hrest k

/-- `varsUpdate` on tables equal up to sprite ids, with sprites equal up to
id, yields tables equal up to sprite ids. -/
theorem varsUpdate_rel :
    ∀ (v1 v2 : List (String × USprite)) (k : String) (w1 w2 : USprite),
    v1.map (fun p => (p.1, scrubSprite p.2)) =
      v2.map (fun p => (p.1, scrubSprite p.2)) →
    scrubSprite w1 = scrubSprite w2 →
    (varsUpdate v1 k w1).map (fun p => (p.1, scrubSprite p.2)) =
      (varsUpdate v2 k w2).map (fun p => (p.1, scrubSprite p.2)) := by
  intro v1
  induction v1 with
  | nil =>
    intro v2 k w1 w2 h hw
    cases v2 with
    | nil => rfl
    | cons q r => simp at h
  | cons p rest ih =>
    intro v2 k w1 w2 h hw
    cases v2 with
    | nil => simp at h
    | cons q rest2 =>
      obtain ⟨p1, p2⟩ := p
      obtain ⟨q1, q2⟩ := q
      simp only [List.map_cons, List.cons.injEq, Prod.mk.injEq] at h
      obtain ⟨⟨hk, hs⟩, hrest⟩ := h
      subst hk
      by_cases hkk : p1 = k
      · simp only [varsUpdate, if_pos hkk, List.map_cons]
        rw [hw, hrest]
      · simp only [varsUpdate, if_neg hkk, List.map_cons]
        rw [hs, ih rest2 k w1 w2 hrest hw]

set_option maxHeartbeats 1000000 in
/-- A sprite method, run on two sprites equal up to id, emits step lists
equal up to ids and returns sprites equal up to id (or throws the same
message). -/
theorem runSpriteMethod_rel (o m : String) (sp1 sp2 : USprite) (args : Args)
    (hsp : scrubSprite sp1 = scrubSprite sp2) :
    Except.map (fun p : List Step × USprite => (p.1.map scrubStep, scrubSprite p.2))
      (runSpriteMethod o m sp1 args) =
    Except.map (fun p : List Step × USprite => (p.1.map scrubStep, scrubSprite p.2))
      (runSpriteMethod o m sp2 args) := by
  obtain ⟨i1, n1, s1, x1, y1, vx1, vy1, r1⟩ := sp1
  obtain ⟨i2, n2, s2, x2, y2, vx2, vy2, r2⟩ := sp2
  simp only [scrubSprite, USprite.mk.injEq] at hsp
  obtain ⟨hn, hs, hx, hy, hvx, hvy, hr⟩ := hsp.2
  subst hn; subst hs; subst hx; subst hy; subst hvx; subst hvy; subst hr
  unfold runSpriteMethod
  split_ifs
  · -- say
    unfold sayM
    cases parseFloatJS (jsOrStr (argsGet args "duration") "2").data <;>
      simp [scrubStep, scrubSprite, Except.map]
  · -- chat
    unfold chatM
    simp [scrubStep, scrubSprite, Except.map]
  · -- move_to
    simp only [moveToM]
    cases (argsGet args "x").bind (fun s => parseIntJS s.data) <;>
      cases (argsGet args "y").bind (fun s => parseIntJS s.data) <;>
      cases parseFloatJS (jsOrStr (argsGet args "speed") "1").data <;>
      simp [scrubStep, scrubSprite, Except.map]
  · -- go_to
    simp only [goToM]
    cases (argsGet args "x").bind (fun s => parseIntJS s.data) <;>
      cases (argsGet args "y").bind (fun s => parseIntJS s.data) <;>
      cases parseFloatJS (jsOrStr (argsGet args "speed") "2").data <;>
      simp [scrubStep, scrubSprite, Except.map]
  · -- rotate_to
    simp only [rotateToM]
    cases (argsGet args "angle").bind (fun s => parseIntJS s.data) <;>
      cases parseFloatJS (jsOrStr (argsGet args "speed") "1").data <;>
      simp [scrubStep, scrubSprite, Except.map]
  · -- look_at
    simp only [lookAtM]
    cases (argsGet args "x").bind (fun s => parseIntJS s.data) <;>
      cases (argsGet args "y").bind (fun s => parseIntJS s.data) <;>
      cases parseFloatJS (jsOrStr (argsGet args "speed") "0.5").data <;>
      simp [scrubStep, scrubSprite, Except.map]
  · -- set_style
    simp only [setStyleM]
    cases parseFloatJS (jsOrStr (argsGet args "speed") "1").data <;>
      simp [scrubStep, scrubSprite, Except.map, List.map_map, Function.comp]
  · -- Object.prototype no-op
    simp [scrubSprite, Except.map]
  · -- constructor
    rfl
  · -- no such method
    rfl

/-- `addImports` relates related states: it reads and writes only the
imported-library set, which `StRel` forces to be equal. -/
theorem addImports_rel :
    ∀ (libs : List String) (st1 st2 : LoopSt), StRel st1 st2 →
    StRelE (addImports libs st1) (addImports libs st2) := by
  intro libs
  induction libs with
  | nil =>
    intro st1 st2 h
    exact h
  | cons lib rest ih =>
    intro st1 st2 h
    obtain ⟨hctr, hlogs, hnames, hlibs, hvars, hsteps⟩ := h
    unfold addImports
    split_ifs
    · exact ih _ _ ⟨hctr, hlogs, hnames, by simp [hlibs], hvars, hsteps⟩
    · rfl

/-- A library handler, run with equal counters and variable tables equal up
to ids, produces (if present) the same error or step lists equal up to ids
and the same new counter. -/
theorem libHandler_rel (gen1 gen2 : Nat → Nat) (ctr : Nat)
    (vars1 vars2 : List (String × USprite)) (lib m : String) (args : Args)
    (raw : List Char)
    (hv : vars1.map (fun p => (p.1, scrubSprite p.2)) =
      vars2.map (fun p => (p.1, scrubSprite p.2))) :
    Option.map (Except.map (fun p : List Step × Nat => (p.1.map scrubStep, p.2)))
      (libHandler gen1 ctr vars1 lib m args raw) =
    Option.map (Except.map (fun p : List Step × Nat => (p.1.map scrubStep, p.2)))
      (libHandler gen2 ctr vars2 lib m args raw) := by
  unfold libHandler
  by_cases h1 : lib = "world" ∧ m = "set_background"
  · simp only [if_pos h1]
  · simp only [if_neg h1]
    by_cases h2 : lib = "world" ∧ m = "create_zone"
    · -- the zone ids differ, scrubbing removes them
      simp only [if_pos h2]
      cases parseIntJS (jsOrStr (argsGet args "x") "0").data <;>
        cases parseIntJS (jsOrStr (argsGet args "y") "0").data <;>
        cases parseIntJS (jsOrStr (argsGet args "width") "10").data <;>
        cases parseIntJS (jsOrStr (argsGet args "height") "10").data <;>
        simp [scrubStep, Except.map]
    · simp only [if_neg h2]
      by_cases h3 : lib = "physics" ∧ m = "set_gravity"
      · simp only [if_pos h3]
      · simp only [if_neg h3]
        by_cases h4 : lib = "sound" ∧ m = "play"
        · simp only [if_pos h4]
        · simp only [if_neg h4]
          by_cases h5 : lib = "neurons" ∧ m = "create_network"
          · simp only [if_pos h5]
            cases ha : argsGet args "sprite" with
            | none => rfl
            | some key =>
              have hgr := varsGet_rel vars1 vars2 hv key
              cases hg1 : varsGet vars1 key with
              | none =>
                cases hg2 : varsGet vars2 key with
                | none => simp [Option.bind, hg1, hg2]
                | some sp2 => rw [hg1, hg2] at hgr; simp at hgr
              | some sp1 =>
                cases hg2 : varsGet vars2 key with
                | none => rw [hg1, hg2] at hgr; simp at hgr
                | some sp2 => simp [Option.bind, hg1, hg2, scrubStep, Except.map]
          · simp only [if_neg h5]
            by_cases h6 : lib = "neurons" ∧ m = "reward"
            · simp only [if_pos h6]
              cases ha : argsGet args "sprite" with
              | none => rfl
              | some key =>
                have hgr := varsGet_rel vars1 vars2 hv key
                cases hg1 : varsGet vars1 key with
                | none =>
                  cases hg2 : varsGet vars2 key with
                  | none =>
                    cases parseFloatJS (jsOrStr (argsGet args "value") "1").data <;>
                      simp [Option.bind, hg1, hg2]
                  | some sp2 => rw [hg1, hg2] at hgr; simp at hgr
                | some sp1 =>
                  cases hg2 : varsGet vars2 key with
                  | none => rw [hg1, hg2] at hgr; simp at hgr
                  | some sp2 =>
                    cases parseFloatJS (jsOrStr (argsGet args "value") "1").data <;>
                      simp [Option.bind, hg1, hg2, scrubStep, Except.map]
            · simp only [if_neg h6]
              by_cases h7 : lib = "ai" ∧ m = "wait"
              · simp only [if_pos h7]
              · simp only [if_neg h7]
                by_cases h8 : lib = "ai" ∧ m = "create_prop"
                · simp only [if_pos h8]
                  cases parseIntJS (jsOrStr (argsGet args "x") "50").data <;>
                    cases parseIntJS (jsOrStr (argsGet args "y") "50").data <;>
                    cases parseIntJS (jsOrStr (argsGet args "width") "10").data <;>
                    cases parseIntJS (jsOrStr (argsGet args "height") "10").data <;>
                    simp [scrubStep, Except.map]
                · simp only [if_neg h8]

/-- One line, processed from two states that differ only in generated ids,
throws the same error or yields states that differ only in generated ids:
no control-flow decision of the engine ever inspects an id. -/
theorem processLine_rel (gen1 gen2 : Nat → Nat) (st1 st2 : LoopSt) (t : List Char)
    (hrel : StRel st1 st2) :
    StRelE (processLine gen1 st1 t) (processLine gen2 st2 t) := by
  obtain ⟨hctr, hlogs, hnames, hlibs, hvars, hsteps⟩ := hrel
  unfold processLine
  cases matchImport t with
  | some libs =>
    try simp only []
    have ha := addImports_rel libs st1 st2 ⟨hctr, hlogs, hnames, hlibs, hvars, hsteps⟩
    cases ha1 : addImports libs st1 with
    | error e1 =>
      cases ha2 : addImports libs st2 with
      | error e2 =>
        rw [ha1, ha2] at ha
        exact ha
      | ok st2' =>
        rw [ha1, ha2] at ha
        simp [StRelE] at ha
    | ok st1' =>
      cases ha2 : addImports libs st2 with
      | error e2 =>
        rw [ha1, ha2] at ha
        simp [StRelE] at ha
      | ok st2' =>
        rw [ha1, ha2] at ha
        obtain ⟨hc', hl', hn', hlb', hv', hs'⟩ := ha
        exact ⟨hc', by rw [hl'], hn', hlb', hv', hs'⟩
  | none =>
  try simp only []
  cases matchCreation t with
  | some pr =>
    obtain ⟨varName, argsChars⟩ := pr
    try simp only []
    rw [hlibs, hctr]
    by_cases hai : (!st2.libs.contains "ai") = true
    · simp only [if_pos hai]
      exact rfl
    · simp only [if_neg hai]
      have hmk := mkSprite_rel gen1 gen2 st2.ctr (parseArgs argsChars)
      cases hm1 : mkSprite gen1 st2.ctr (parseArgs argsChars) with
      | error e1 =>
        cases hm2 : mkSprite gen2 st2.ctr (parseArgs argsChars) with
        | error e2 =>
          rw [hm1, hm2] at hmk
          simp only [Except.map, Except.error.injEq] at hmk
          exact hmk
        | ok sp2 =>
          rw [hm1, hm2] at hmk
          simp [Except.map] at hmk
      | ok sp1 =>
        cases hm2 : mkSprite gen2 st2.ctr (parseArgs argsChars) with
        | error e2 =>
          rw [hm1, hm2] at hmk
          simp [Except.map] at hmk
        | ok sp2 =>
          rw [hm1, hm2] at hmk
          simp only [Except.map, Except.ok.injEq] at hmk
          have hname := scrub_name hmk
          have hvg := varsGet_rel st1.vars st2.vars hvars varName
          have hvgs : (varsGet st1.vars varName).isSome =
              (varsGet st2.vars varName).isSome := by
            have h2 := congrArg Option.isSome hvg
            simpa using h2
          rw [hvgs]
          by_cases hdup : (varsGet st2.vars varName).isSome = true
          · simp only [if_pos hdup]
            exact rfl
          · simp only [if_neg hdup]
            rw [hnames, hname]
            by_cases hnm : (st2.names.contains sp2.name) = true
            · simp only [if_pos hnm]
              exact rfl
            · simp only [if_neg hnm]
              refine ⟨rfl, ?_, rfl, rfl, ?_, ?_⟩
              · rw [hlogs]
              · simp only [List.map_append, List.map_cons, List.map_nil, hvars]
                rw [hmk]
              · simp only [List.map_append, List.map_cons, List.map_nil, hsteps,
                  scrubStep]
                rw [show ({ snapOf sp1 with id := 0 } : SpriteSnap) =
                  { snapOf sp2 with id := 0 } from snap_scrub hmk]
  | none =>
  try simp only []
  cases matchPrint t with
  | some raw =>
    try simp only []
    refine ⟨hctr, hlogs, hnames, hlibs, hvars, ?_⟩
    simp only [List.map_append, List.map_cons, List.map_nil, hsteps, scrubStep]
  | none =>
  try simp only []
  cases matchCall t with
  | some tr =>
    obtain ⟨name, m, argsChars⟩ := tr
    try simp only []
    rw [hlibs, hctr]
    by_cases hni : (validLibraries.contains name && !st2.libs.contains name) = true
    · simp only [if_pos hni]
      exact rfl
    · simp only [if_neg hni]
      have hlh := libHandler_rel gen1 gen2 st2.ctr st1.vars st2.vars name m
        (parseArgs argsChars) argsChars hvars
      cases hh1 : libHandler gen1 st2.ctr st1.vars name m
          (parseArgs argsChars) argsChars with
      | none =>
        try simp only []
        cases hh2 : libHandler gen2 st2.ctr st2.vars name m
            (parseArgs argsChars) argsChars with
        | none =>
          try simp only []
          have hvg := varsGet_rel st1.vars st2.vars hvars name
          cases hv1 : varsGet st1.vars name with
          | none =>
            cases hv2 : varsGet st2.vars name with
            | none =>
              try simp only []
              exact rfl
            | some sp2 =>
              rw [hv1, hv2] at hvg
              simp at hvg
          | some sp1 =>
            try simp only []
            cases hv2 : varsGet st2.vars name with
            | none =>
              rw [hv1, hv2] at hvg
              simp at hvg
            | some sp2 =>
              try simp only []
              rw [hv1, hv2] at hvg
              simp only [Option.map_some', Option.some.injEq] at hvg
              have hrm := runSpriteMethod_rel name m sp1 sp2 (parseArgs argsChars) hvg
              cases hr1 : runSpriteMethod name m sp1 (parseArgs argsChars) with
              | error e1 =>
                try simp only []
                cases hr2 : runSpriteMethod name m sp2 (parseArgs argsChars) with
                | error e2 =>
                  try simp only []
                  rw [hr1, hr2] at hrm
                  simp only [Except.map, Except.error.injEq] at hrm
                  exact hrm
                | ok pr2 =>
                  rw [hr1, hr2] at hrm
                  simp [Except.map] at hrm
              | ok pr1 =>
                obtain ⟨new1, sp1'⟩ := pr1
                try simp only []
                cases hr2 : runSpriteMethod name m sp2 (parseArgs argsChars) with
                | error e2 =>
                  rw [hr1, hr2] at hrm
                  simp [Except.map] at hrm
                | ok pr2 =>
                  obtain ⟨new2, sp2'⟩ := pr2
                  try simp only []
                  rw [hr1, hr2] at hrm
                  simp only [Except.map, Except.ok.injEq, Prod.mk.injEq] at hrm
                  obtain ⟨hnew, hsp'⟩ := hrm
                  refine ⟨rfl, hlogs, hnames, rfl, ?_, ?_⟩
                  · exact varsUpdate_rel st1.vars st2.vars name sp1' sp2' hvars hsp'
                  · simp only [List.map_append, hsteps, hnew]
        | some r2 =>
          rw [hh1, hh2] at hlh
          simp [Option.map] at hlh
      | some r1 =>
        try simp only []
        cases hh2 : libHandler gen2 st2.ctr st2.vars name m
            (parseArgs argsChars) argsChars with
        | none =>
          rw [hh1, hh2] at hlh
          simp [Option.map] at hlh
        | some r2 =>
          try simp only []
          rw [hh1, hh2] at hlh
          simp only [Option.map_some', Option.some.injEq] at hlh
          cases r1 with
          | error e1 =>
            try simp only []
            cases r2 with
            | error e2 =>
              try simp only []
              simp only [Except.map, Except.error.injEq] at hlh
              exact hlh
            | ok pr2 =>
              simp [Except.map] at hlh
          | ok pr1 =>
            obtain ⟨new1, ctr1'⟩ := pr1
            try simp only []
            cases r2 with
            | error e2 =>
              simp [Except.map] at hlh
            | ok pr2 =>
              obtain ⟨new2, ctr2'⟩ := pr2
              try simp only []
              simp only [Except.map, Except.ok.injEq, Prod.mk.injEq] at hlh
              obtain ⟨hnew, hctr'⟩ := hlh
              refine ⟨hctr', hlogs, hnames, rfl, hvars, ?_⟩
              simp only [List.map_append, hsteps, hnew]
  | none =>
    try simp only []
    exact rfl

/-- The whole loop relates runs with different id supplies: problems, logs
and executed-line counts agree, and the steps agree up to generated ids. -/
theorem runLines_rel (gen1 gen2 : Nat → Nat) :
    ∀ (l : List (List Char)) (n total : Nat) (st1 st2 : LoopSt), StRel st1 st2 →
    ResultRel (runLines gen1 total l n st1).1 (runLines gen2 total l n st2).1 := by
  intro l
  induction l with
  | nil =>
    intro n total st1 st2 hrel
    obtain ⟨hctr, hlogs, hnames, hlibs, hvars, hsteps⟩ := hrel
    have hlen : st1.steps.length = st2.steps.length := by
      have h2 := congrArg List.length hsteps
      simpa using h2
    refine ⟨rfl, ?_, hsteps, rfl⟩
    simp only [runLines]
    rw [hlogs, hlen]
  | cons a rest ih =>
    intro n total st1 st2 hrel
    by_cases he : (jsTrim (stripComment (jsTrim a))).isEmpty = true
    · simp only [runLines, lineStep, if_pos he]
      exact ih _ _ _ _ hrel
    · simp only [runLines, lineStep, if_neg he]
      have hp := processLine_rel gen1 gen2 st1 st2 (jsTrim (stripComment (jsTrim a))) hrel
      cases hp1 : processLine gen1 st1 (jsTrim (stripComment (jsTrim a))) with
      | error e1 =>
        cases hp2 : processLine gen2 st2 (jsTrim (stripComment (jsTrim a))) with
        | error e2 =>
          try simp only []
          rw [hp1, hp2] at hp
          obtain rfl : e1 = e2 := hp
          obtain ⟨hctr, hlogs, hnames, hlibs, hvars, hsteps⟩ := hrel
          exact ⟨rfl, hlogs, rfl, rfl⟩
        | ok st2' =>
          rw [hp1, hp2] at hp
          simp [StRelE] at hp
      | ok st1' =>
        cases hp2 : processLine gen2 st2 (jsTrim (stripComment (jsTrim a))) with
        | error e2 =>
          rw [hp1, hp2] at hp
          simp [StRelE] at hp
        | ok st2' =>
          try simp only []
          rw [hp1, hp2] at hp
          exact ih _ _ _ _ hp

/-- **C1 (amended)** — Determinism up to generated ids: for every fixed
source text and any two states of the ambient nanoid supply, the two parses
return identical problems lists, identical logs, identical executed-line
counts, and step sequences of equal length that are equal after erasing
everything derived from freshly drawn ids (the snapshot ids, the `spriteId`
references, and interpolated `LOG` text).  Full equality of `steps` fails
only at those generated-id positions (see the counterexample). -/
theorem C1_parse_deterministic_modulo_ids (code : String) (gen1 gen2 : Nat → Nat) :
    (parseUniversalCode code gen1).problems = (parseUniversalCode code gen2).problems ∧
    (parseUniversalCode code gen1).logs = (parseUniversalCode code gen2).logs ∧
    (parseUniversalCode code gen1).steps.map scrubStep =
      (parseUniversalCode code gen2).steps.map scrubStep ∧
    (parseUniversalCode code gen1).steps.length =
      (parseUniversalCode code gen2).steps.length ∧
    (parseUniversalCode code gen1).executedLines =
      (parseUniversalCode code gen2).executedLines := by
  have h := runLines_rel gen1 gen2 (splitLines code) 1 (splitLines code).length
    initSt initSt ⟨rfl, rfl, rfl, rfl, rfl, rfl⟩
  obtain ⟨h1, h2, h3, h4⟩ := h
  refine ⟨h1, h2, h3, ?_, h4⟩
  have h5 := congrArg List.length h3
  simpa using h5

end Playground
